import Mathlib

/-!
# Request pipeline of the `social` API: a shallow embedding

The Go handlers of `cmd/api` are translated into state-passing Lean functions.
One request is processed against a state `St ω` that holds

* `world : ω`, the state behind the collaborators (database, cache, limiter),
* `rw`, the calls made on the `http.ResponseWriter`, in order,
* `logs`, the calls made on the logger, in order,
* `calls`, the collaborator calls (authenticator, cache, store, limiter), in order,
* `panicked`, set when the Go code would panic (nil dereference).

Go values `(T, error)` are pairs `T × Option error`; a Go pointer `*T` is an
`Option T` with `none` for `nil`; `int64` values are integers with the range
checked where the code checks it.
-/

namespace Social

/-! ## Go errors -/

/-- Go `error` values that occur in the pipeline: `errors.New` / `fmt.Errorf`
values, identified by their text, and `*strconv.NumError`. -/
inductive error where
  | New (text : String)
  | NumError (Func : String) (Num : String) (Err : error)
  deriving DecidableEq, Repr

namespace strconv

/-- The sentinel `strconv.ErrSyntax`. -/
def ErrSyntax : error := error.New "invalid syntax"

/-- The sentinel `strconv.ErrRange`. -/
def ErrRange : error := error.New "value out of range"

/-- Largest `uint64`. -/
def maxUint64 : Nat := 2 ^ 64 - 1

/-- The digit loop of `strconv.ParseUint(s, 10, 64)`: the accumulator `n`, the
remaining bytes; returns the value and the sentinel of the failure, if any. -/
def parseUintLoop : List Char → Nat → Nat × Option error
  | [], n => (n, none)
  | c :: cs, n =>
    if c.isDigit then
      if n ≥ maxUint64 / 10 + 1 then (maxUint64, some ErrRange)
      else
        let n1 := n * 10 + (c.toNat - 48)
        if n1 > maxUint64 then (maxUint64, some ErrRange) else parseUintLoop cs n1
    else (0, some ErrSyntax)

/-- Base 10, 64 bit `strconv.ParseUint` on the bytes of the number. -/
def ParseUint (s : List Char) : Nat × Option error :=
  match s with
  | [] => (0, some ErrSyntax)
  | _ => parseUintLoop s 0

/-- Base 10, 64 bit `strconv.ParseInt(s, 10, 64)`. -/
def ParseInt (s : String) : Int × Option error :=
  match s.data with
  | [] => (0, some (error.NumError "ParseInt" s ErrSyntax))
  | c :: cs =>
    let neg := c == '-'
    let digits := if c == '+' ∨ c == '-' then cs else c :: cs
    match ParseUint digits with
    | (_, some (error.New "invalid syntax")) => (0, some (error.NumError "ParseInt" s ErrSyntax))
    | (un, _) =>
      let cutoff : Nat := 2 ^ 63
      if !neg ∧ un ≥ cutoff then
        ((cutoff : Int) - 1, some (error.NumError "ParseInt" s ErrRange))
      else if neg ∧ un > cutoff then
        (-(cutoff : Int), some (error.NumError "ParseInt" s ErrRange))
      else (if neg then -(un : Int) else (un : Int), none)

end strconv

namespace errors

/-- The function `errors.Is`: `err` is the target, or wraps it (a
`*strconv.NumError` unwraps to its `Err`). -/
def Is : error → error → Bool
  | error.New text, target => decide (error.New text = target)
  | error.NumError f n inner, target =>
    decide (error.NumError f n inner = target) || Is inner target

end errors

/-! ## The `float64` held by a decoded JSON number -/

/-- A `float64` value: `(-1)^neg * mant * 2^exp`, an infinity, or a NaN. -/
inductive float64 where
  | finite (neg : Bool) (mant : Nat) (exp : Int)
  | inf (neg : Bool)
  | nan
  deriving DecidableEq, Repr

namespace float64

/-- Number of binary digits of `n`, computed with `fuel` halvings at most. -/
def bitLenAux : Nat → Nat → Nat
  | 0, _ => 0
  | fuel + 1, n => if n = 0 then 0 else bitLenAux fuel (n / 2) + 1

/-- Number of binary digits of `n` (`0` for `0`). -/
def bitLen (n : Nat) : Nat := bitLenAux n n

/-- Round `m / 2^k` to the nearest integer, ties to the even one. -/
def roundShift (m k : Nat) : Nat :=
  let q := m / 2 ^ k
  let r := m % 2 ^ k
  if 2 * r > 2 ^ k then q + 1
  else if 2 * r = 2 ^ k then (if q % 2 = 0 then q else q + 1)
  else q

/-- The `float64` nearest to the natural number `n` (53 bit significand, ties
to even; a significand rounded up to `2^53` is renormalised): what decoding the
JSON integer `n` into a `float64` yields. -/
def ofNat (neg : Bool) (n : Nat) : float64 :=
  let bits := bitLen n
  if n = 0 then finite neg 0 0
  else if bits ≤ 53 then finite neg n 0
  else
    let m := roundShift n (bits - 53)
    if m = 2 ^ 53 then finite neg (2 ^ 52) ((bits - 52 : Nat) : Int)
    else finite neg m ((bits - 53 : Nat) : Int)

/-- The `float64` nearest to the integer `i`. -/
def ofInt (i : Int) : float64 :=
  ofNat (decide (i < 0)) i.natAbs

/-- The integer nearest to a finite value (ties to even), as the digits that
`%.f` prints after the sign. -/
def roundedMagnitude (mant : Nat) (exp : Int) : Nat :=
  match exp with
  | Int.ofNat e => mant * 2 ^ e
  | Int.negSucc e => roundShift mant (e + 1)

end float64

/-! ## Claims of a validated token -/

namespace jwt

/-- A value of the generic claims map `map[string]interface{}`. JSON numbers
are held as `float64`. -/
inductive Value where
  | null
  | bool (b : Bool)
  | number (f : float64)
  | string (s : String)
  | composite (goType : String) (rendering : String)
  | int64 (i : Int)
  deriving DecidableEq, Repr

/-- The map type `jwt.MapClaims`. -/
abbrev MapClaims := List (String × Value)

/-- Indexing `claims[key]`: the zero value `nil` for a missing key. -/
def MapClaims.get (claims : MapClaims) (key : String) : Value :=
  match claims.lookup key with
  | some v => v
  | none => Value.null

/-- A parsed `*jwt.Token`; `Claims` is `none` when the dynamic type of the
claims is not `jwt.MapClaims`. -/
structure Token where
  Claims : Option MapClaims
  deriving DecidableEq, Repr

end jwt

namespace fmt

/-- The call `fmt.Sprintf("%.f", v)` on an interface value. -/
def Sprintf_f0 : jwt.Value → String
  | jwt.Value.number (float64.finite neg mant exp) =>
    (if neg then "-" else "") ++ Nat.repr (float64.roundedMagnitude mant exp)
  | jwt.Value.number (float64.inf neg) => if neg then "-Inf" else "+Inf"
  | jwt.Value.number float64.nan => "NaN"
  | jwt.Value.null => "%!f(<nil>)"
  | jwt.Value.bool b => "%!f(bool=" ++ (if b then "true" else "false") ++ ")"
  | jwt.Value.string s => "%!f(string=" ++ s ++ ")"
  | jwt.Value.composite ty r => "%!f(" ++ ty ++ "=" ++ r ++ ")"
  | jwt.Value.int64 i =>
    "%!f(int64=" ++ (if i < 0 then "-" else "") ++ Nat.repr i.natAbs ++ ")"

end fmt

/-! ## Strings, durations -/

namespace strings

/-- The call `strings.Split(s, sep)` for a separator of one byte, which is what
every call site of the pipeline passes (`" "`): the pieces of `s` between the
occurrences of `sep`, `n + 1` pieces for `n` occurrences. -/
def Split (s : String) (sep : Char) : List String :=
  (s.data.splitOn sep).map String.mk

/-- The text before and after the first occurrence of `sep`, none without one. -/
def cut (sep : Char) : List Char → Option (List Char × List Char)
  | [] => none
  | c :: cs =>
    if c = sep then some ([], cs)
    else
      match cut sep cs with
      | some (a, b) => some (c :: a, b)
      | none => none

/-- The helper of `SplitN`: at most `n` pieces, the last one the unsplit rest. -/
def splitNAux (sep : Char) : Nat → List Char → List (List Char)
  | 0, _ => []
  | 1, s => [s]
  | n + 2, s =>
    match cut sep s with
    | none => [s]
    | some (a, b) => a :: splitNAux sep (n + 1) b

/-- The call `strings.SplitN(s, sep, n)` for a separator of one byte and
`n ≥ 0`. -/
def SplitN (s : String) (sep : Char) (n : Nat) : List String :=
  (splitNAux sep n s.data).map String.mk

end strings

/-! ## `encoding/base64`

A character of a text stands for one byte of the Go string. -/

namespace base64

/-- The table `decodeMap` of the standard alphabet: the value of a character,
none for a character outside the alphabet. -/
def decodeMap (c : Char) : Option Nat :=
  if 'A' ≤ c ∧ c ≤ 'Z' then some (c.toNat - 65)
  else if 'a' ≤ c ∧ c ≤ 'z' then some (c.toNat - 97 + 26)
  else if '0' ≤ c ∧ c ≤ '9' then some (c.toNat - 48 + 52)
  else if c = '+' then some 62
  else if c = '/' then some 63
  else none

/-- The character of the standard alphabet for a value below 64. -/
def encodeChar (v : Nat) : Char :=
  if v < 26 then Char.ofNat (65 + v)
  else if v < 52 then Char.ofNat (97 + (v - 26))
  else if v < 62 then Char.ofNat (48 + (v - 52))
  else if v = 62 then '+'
  else '/'

/-- The error `base64.CorruptInputError(n)`. -/
def CorruptInputError (n : Nat) : error :=
  error.New ("illegal base64 data at input byte " ++ Nat.repr n)

/-- The bytes of a quantum of two, three or four values; the bits that do not
fill a byte are dropped, as the encoding is not strict. -/
def quantumBytes : List Nat → List Nat
  | [a, b] => [a * 4 + b / 16]
  | [a, b, c] => [a * 4 + b / 16, (b % 16) * 16 + c / 4]
  | [a, b, c, d] => [a * 4 + b / 16, (b % 16) * 16 + c / 4, (c % 4) * 64 + d]
  | _ => []

/-- Skipping the line feeds and carriage returns from the index `si` on. -/
def skipNewlines : List Char → Nat → List Char × Nat
  | [], si => ([], si)
  | c :: cs, si => if c = '\n' ∨ c = '\r' then skipNewlines cs (si + 1) else (c :: cs, si)

/-- The end of a quantum closed by padding: line breaks are skipped, anything
after them is trailing garbage. -/
def afterPadding (rest : List Char) (si : Nat) (q out : List Nat) : List Nat × Option error :=
  match skipNewlines rest si with
  | ([], _) => (out ++ quantumBytes q, none)
  | (_ :: _, si1) => (out ++ quantumBytes q, some (CorruptInputError si1))

/-- The method `Decode` of `StdEncoding`, quantum by quantum (`decodeQuantum`):
the rest of the input, its index, the values of the quantum under way, the
bytes decoded. -/
def decodeLoop : List Char → Nat → List Nat → List Nat → List Nat × Option error
  | [], si, q, out =>
    if q.length = 0 then (out, none) else (out, some (CorruptInputError (si - q.length)))
  | c :: cs, si, q, out =>
    match decodeMap c with
    | some v =>
      if q.length = 3 then decodeLoop cs (si + 1) [] (out ++ quantumBytes (q ++ [v]))
      else decodeLoop cs (si + 1) (q ++ [v]) out
    | none =>
      if c = '\n' ∨ c = '\r' then decodeLoop cs (si + 1) q out
      else if c ≠ '=' then (out, some (CorruptInputError si))
      else if q.length < 2 then (out, some (CorruptInputError si))
      else if q.length = 2 then
        match skipNewlines cs (si + 1) with
        | ([], si1) => (out, some (CorruptInputError si1))
        | (c2 :: rest, si1) =>
          if c2 ≠ '=' then (out, some (CorruptInputError (si1 - 1)))
          else afterPadding rest (si1 + 1) q out
      else afterPadding cs (si + 1) q out

/-- The method `StdEncoding.DecodeString`. -/
def DecodeString (s : String) : String × Option error :=
  let res := decodeLoop s.data 0 [] []
  (String.mk (res.1.map Char.ofNat), res.2)

/-- The method `Encode` of `StdEncoding` on bytes. -/
def encodeBytes : List Nat → List Char
  | b0 :: b1 :: b2 :: rest =>
    encodeChar (b0 / 4) :: encodeChar ((b0 % 4) * 16 + b1 / 16) ::
      encodeChar ((b1 % 16) * 4 + b2 / 64) :: encodeChar (b2 % 64) :: encodeBytes rest
  | [b0, b1] =>
    [encodeChar (b0 / 4), encodeChar ((b0 % 4) * 16 + b1 / 16), encodeChar ((b1 % 16) * 4), '=']
  | [b0] => [encodeChar (b0 / 4), encodeChar ((b0 % 4) * 16), '=', '=']
  | [] => []

/-- The method `StdEncoding.EncodeToString`. -/
def EncodeToString (s : String) : String :=
  String.mk (encodeBytes (s.data.map Char.toNat))

end base64

namespace time

/-- A `time.Duration`: a count of nanoseconds. -/
structure Duration where
  ns : Int
  deriving DecidableEq, Repr

/-- The helper `fmtFrac`: the digits of the fraction `v / 10^prec` without
trailing zeros (with the decimal point when one is printed) and `v / 10^prec`.
The loop runs from the last digit; `acc` is the text produced so far. -/
def fmtFrac : Nat → Nat → Bool → List Char → List Char × Nat
  | 0, v, print, acc => (if print then '.' :: acc else acc, v)
  | prec + 1, v, print, acc =>
    let digit := v % 10
    let print1 := print || decide (digit ≠ 0)
    fmtFrac prec (v / 10) print1 (if print1 then Nat.digitChar digit :: acc else acc)

/-- The method `Duration.String` on the magnitude `u` of the duration. -/
def formatMagnitude (u : Nat) : String :=
  if u < 1000000000 then
    if u = 0 then "0s"
    else if u < 1000 then Nat.repr u ++ "ns"
    else if u < 1000000 then
      let (frac, v) := fmtFrac 3 u false []
      Nat.repr v ++ String.mk frac ++ "µs"
    else
      let (frac, v) := fmtFrac 6 u false []
      Nat.repr v ++ String.mk frac ++ "ms"
  else
    let (frac, secs) := fmtFrac 9 u false []
    let s := Nat.repr (secs % 60) ++ String.mk frac ++ "s"
    let mins := secs / 60
    if mins > 0 then
      let hours := mins / 60
      (if hours > 0 then Nat.repr hours ++ "h" else "") ++ Nat.repr (mins % 60) ++ "m" ++ s
    else s

/-- The method `Time.Add` on an instant in nanoseconds since the epoch. -/
def Add (t : Int) (d : Duration) : Int := t + d.ns

/-- The method `Time.Unix`: the whole seconds since the epoch. -/
def Unix (t : Int) : Int := t / 1000000000

/-- The method `Duration.String`. -/
def Duration.String (d : Duration) : String :=
  (if d.ns < 0 then "-" else "") ++ formatMagnitude d.ns.natAbs

end time

/-! ## Entities of the store -/

namespace store

/-- The entity `store.Role`. -/
structure Role where
  Name : String
  Level : Int
  deriving DecidableEq, Repr

/-- The entity `store.User`, with the fields the pipeline reads. -/
structure User where
  ID : Int
  Username : String
  Email : String
  Role : Role
  deriving DecidableEq, Repr

/-- The entity `store.Post`, with the fields the pipeline reads. -/
structure Post where
  ID : Int
  UserID : Int
  Title : String
  Content : String
  deriving DecidableEq, Repr

/-- The type `store.PostWithMetadata`, an element of a feed; of its fields only
the post is kept. -/
structure PostWithMetadata where
  Post : Post
  deriving DecidableEq, Repr

/-- The type `store.PaginatedFeedQuery`, with the fields that the handler sets
(`SortOrder` is the field `Sort`). -/
structure PaginatedFeedQuery where
  Limit : Int
  Offset : Int
  SortOrder : String
  deriving DecidableEq, Repr

/-- The sentinel `store.ErrNotFound`. -/
def ErrNotFound : error := error.New "resource not found"

/-- The sentinel `store.ErrConflict`. -/
def ErrConflict : error := error.New "resource already exists"

end store

/-! ## Request, request scope, response writer -/

/-- Keys of the request scope: the unexported string types `userKey` and
`postKey` of `cmd/api`. Keys of different types never compare equal. -/
inductive ctxKey where
  | userKey (s : String)
  | postKey (s : String)
  deriving DecidableEq, Repr

/-- The key `userCtx`. -/
def userCtx : ctxKey := ctxKey.userKey "user"

/-- The key `postCtx`. -/
def postCtx : ctxKey := ctxKey.postKey "post"

/-- Values stored in the request scope, by dynamic type. -/
inductive ctxValue where
  | user (u : Option store.User)
  | post (p : Option store.Post)
  deriving DecidableEq, Repr

/-- A `context.Context` as the chain of its `WithValue` bindings, newest first. -/
abbrev Context := List (ctxKey × ctxValue)

namespace context

/-- The call `context.WithValue(ctx, key, val)`. -/
def WithValue (ctx : Context) (key : ctxKey) (val : ctxValue) : Context :=
  (key, val) :: ctx

/-- The method `ctx.Value(key)`: the newest binding of `key`, `nil` without one. -/
def Value (ctx : Context) (key : ctxKey) : Option ctxValue :=
  ctx.lookup key

end context

/-- A `http.Header`: canonical key to list of values. -/
abbrev Header := List (String × List String)

/-- The method `Header.Get`: the first value of the key, `""` without one. -/
def Header.Get (h : Header) (key : String) : String :=
  match h.lookup key with
  | some (v :: _) => v
  | _ => ""

/-- The parts of a `*http.Request` that the pipeline reads. -/
structure Request where
  Method : String
  Path : String
  RemoteAddr : String
  Header : Header
  URLParams : List (String × String)
  ctx : Context
  deriving DecidableEq, Repr

/-- The method `r.WithContext(ctx)`. -/
def Request.WithContext (r : Request) (ctx : Context) : Request :=
  { r with ctx := ctx }

/-- The value handed to the JSON encoder by `writeJSON`: the error envelope
with a fixed message or with the text `err.Error()` (`errorOf`), or the data
envelope. -/
inductive Body where
  | errorEnvelope (message : String)
  | dataUser (u : Option store.User)
  | dataPost (p : Option store.Post)
  | dataString (s : String)
  | dataNull
  | errorOf (err : error)
  | dataFeed (feed : List store.PostWithMetadata)
  | dataUserWithToken (u : Option store.User) (token : String)
  deriving DecidableEq, Repr

/-- A call on the `http.ResponseWriter`. -/
inductive rwCall where
  | HeaderSet (key : String) (value : String)
  | WriteHeader (status : Nat)
  | Encode (body : Body)
  deriving DecidableEq, Repr

/-- An argument of a logger call. -/
inductive logArg where
  | str (s : String)
  | errText (e : error)
  | url (path : String)
  deriving DecidableEq, Repr

/-- A call on the logger: the method, the message, the arguments. -/
structure logEntry where
  method : String
  msg : String
  args : List logArg
  deriving DecidableEq, Repr

/-- A call on a collaborator, or on the next handler of the chain when that
handler is the recording one (`recordNext`). -/
inductive Call where
  | Allow (key : String)
  | ValidateToken (token : String)
  | CacheGet (userID : Int)
  | CacheSet (user : Option store.User)
  | CacheDelete (userID : Int)
  | UsersGetByID (userID : Int)
  | RolesGetByName (roleName : String)
  | ServeHTTP (r : Request)
  | PostsGetByID (postID : Int)
  | PostsUpdate (post : Option store.Post)
  | PostsGetUserFeed (userID : Int) (fq : store.PaginatedFeedQuery)
  | UsersGetByEmail (email : String)
  | UsersCreateAndInvate (user : store.User) (token : String) (invitationExp : time.Duration)
  | UsersActivate (token : String)
  | UsersDelete (userID : Int)
  | GenerateToken (claims : jwt.MapClaims)
  | MailerSend (email : String) (activationURL : String)
  | TimeNow
  deriving DecidableEq, Repr

/-- State of one request being processed. -/
structure St (ω : Type) where
  world : ω
  rw : List rwCall
  logs : List logEntry
  calls : List Call
  writeErr : Option error
  panicked : Bool

namespace St

variable {ω : Type}

/-- A fresh request against the world `w`: nothing written, nothing called. -/
def init (w : ω) : St ω :=
  { world := w, rw := [], logs := [], calls := [], writeErr := none, panicked := false }

/-- Record a collaborator call. -/
def call (st : St ω) (c : Call) : St ω := { st with calls := st.calls ++ [c] }

/-- Record a logger call. -/
def log (st : St ω) (e : logEntry) : St ω := { st with logs := st.logs ++ [e] }

/-- A nil dereference: the goroutine panics. -/
def nilDeref (st : St ω) : St ω := { st with panicked := true }

end St

/-- A `http.Handler`: `ServeHTTP(rw, r)` as a transformer of the request state. -/
abbrev Handler (ω : Type) := Request → St ω → St ω

/-- A next handler that only records that it was served, and with which request. -/
def recordNext {ω : Type} : Handler ω := fun r st => st.call (Call.ServeHTTP r)

/-! ## The application and its collaborators -/

namespace store

/-- The interface `Storage.Users`: the methods used by the handlers. A method
that takes the user by pointer also returns the user as it leaves it. -/
structure UsersStore (ω : Type) where
  GetByID : ω → Int → Option User × Option error
  GetByEmail : ω → String → Option User × Option error
  CreateAndInvate : ω → User → String → time.Duration → (User × Option error) × ω
  Activate : ω → String → Option error × ω
  Delete : ω → Int → Option error × ω

/-- The interface `Storage.Posts`: the methods used by the handlers. `Update`
takes the post by pointer and also returns the post as it leaves it. -/
structure PostsStore (ω : Type) where
  GetByID : ω → Int → Option Post × Option error
  Update : ω → Option Post → (Option Post × Option error) × ω
  GetUserFeed : ω → Int → PaginatedFeedQuery → List PostWithMetadata × Option error

/-- The interface `Storage.Roles`. -/
structure RolesStore (ω : Type) where
  GetByName : ω → String → Option Role × Option error

/-- The persistence collaborator `store.Storage`. -/
structure Storage (ω : Type) where
  Users : UsersStore ω
  Roles : RolesStore ω
  Posts : PostsStore ω

end store

namespace cache

/-- The interface `cache.Storage.Users`: `Get` reads, `Set` and `Delete` write. -/
structure UsersCache (ω : Type) where
  Get : ω → Int → Option store.User × Option error
  Set : ω → Option store.User → Option error × ω
  Delete : ω → Int → ω

/-- The cache collaborator `cache.Storage`. -/
structure Storage (ω : Type) where
  Users : UsersCache ω

end cache

/-- The authenticator. -/
structure Authenticator (ω : Type) where
  ValidateToken : ω → String → Option jwt.Token × Option error
  GenerateToken : ω → jwt.MapClaims → String × Option error

/-- The mailer, the method used by `registerUserHandler`: the address and the
activation link of the welcome mail. -/
structure Mailer (ω : Type) where
  Send : ω → String → String → Option error × ω

/-- The field `config.auth.basic`. -/
structure basicConfig where
  user : String
  pass : String
  deriving DecidableEq, Repr

/-- The field `config.auth.token`. -/
structure tokenConfig where
  exp : time.Duration
  iss : String
  deriving DecidableEq, Repr

/-- The field `config.auth`. -/
structure authConfig where
  basic : basicConfig
  token : tokenConfig
  deriving DecidableEq, Repr

/-- The fields of `config` read by the handlers besides `redisCfg` and
`rateLimiter`: `auth` and `frontedURL`. -/
structure configRest where
  auth : authConfig
  frontedURL : String
  deriving DecidableEq, Repr

/-- The interface `ratelimiter.Limiter`. -/
structure Limiter (ω : Type) where
  Allow : ω → String → (Bool × time.Duration) × ω

/-- The field `config.redisCfg`. -/
structure redisConfig where
  enabled : Bool
  deriving DecidableEq, Repr

/-- The field `config.rateLimiter`, a `ratelimiter.Config`. -/
structure ratelimiterConfig where
  Enabled : Bool
  deriving DecidableEq, Repr

/-- The fields of `config` read by the pipeline. -/
structure config where
  redisCfg : redisConfig
  rateLimiter : ratelimiterConfig
  deriving DecidableEq, Repr

/-- The receiver `app *application`. The field `timeNow` is the clock behind
`time.Now()`: the reading in nanoseconds since the epoch, and the world after
the reading. -/
structure application (ω : Type) where
  config : config
  store : store.Storage ω
  cacheStorage : cache.Storage ω
  authenticator : Authenticator ω
  rateLimiter : Limiter ω
  configRest : configRest
  mailer : Mailer ω
  timeNow : ω → Int × ω

variable {ω : Type}

/-! ## `json.go` -/

/-- The function `writeJSON`: sets the content type, writes the status, encodes
the data; returns what the encoder returns. -/
def writeJSON (status : Nat) (data : Body) (st : St ω) : Option error × St ω :=
  (st.writeErr,
    { st with rw := st.rw ++ [rwCall.HeaderSet "Content-Type" "application/json",
                              rwCall.WriteHeader status, rwCall.Encode data] })

/-- The function `writeJSONError`. -/
def writeJSONError (status : Nat) (message : String) (st : St ω) : Option error × St ω :=
  writeJSON status (Body.errorEnvelope message) st

/-! ## `errors.go` -/

/-- The logger arguments shared by the error responses. -/
def requestFields (r : Request) (err : error) : List logArg :=
  [logArg.str "method", logArg.str r.Method, logArg.str "path", logArg.str r.Path,
   logArg.str "error", logArg.errText err]

/-- The method `internalServerError`. -/
def internalServerError (r : Request) (err : error) (st : St ω) : St ω :=
  (writeJSONError 500 "the server encountered a problem"
    (st.log ⟨"Errorw", "internal error", requestFields r err⟩)).2

/-- The method `unauthorizedErrorResponse`. -/
def unauthorizedErrorResponse (r : Request) (err : error) (st : St ω) : St ω :=
  (writeJSONError 401 "unauthorized"
    (st.log ⟨"Warnf", "unauthorized error", requestFields r err⟩)).2

/-- The method `forbiddendResponse`. -/
def forbiddendResponse (r : Request) (st : St ω) : St ω :=
  (writeJSONError 403 "forbidden"
    (st.log ⟨"Warnw", "forbidden",
      [logArg.str "method", logArg.str r.Method, logArg.str "path", logArg.url r.Path,
       logArg.str "error"]⟩)).2

/-- The method `rateLimitExceededResponse`. -/
def rateLimitExceededResponse (r : Request) (retryAfter : String) (st : St ω) : St ω :=
  let st1 := st.log ⟨"Warnw", "rate limited exceeded",
    [logArg.str "method", logArg.str r.Method, logArg.str "path", logArg.str r.Path]⟩
  let st2 := { st1 with rw := st1.rw ++ [rwCall.HeaderSet "Retry-After" retryAfter] }
  (writeJSONError 429 ("rate limit exceeded, retry after: " ++ retryAfter) st2).2

/-- The method `badRequestResponse`: the body carries the text of the error. -/
def badRequestResponse (r : Request) (err : error) (st : St ω) : St ω :=
  (writeJSON 400 (Body.errorOf err)
    (st.log ⟨"Warnf", "bad request error", requestFields r err⟩)).2

/-- The method `notFoundResponse`. -/
def notFoundResponse (r : Request) (err : error) (st : St ω) : St ω :=
  (writeJSONError 404 "not found"
    (st.log ⟨"Warnf", "not found error", requestFields r err⟩)).2

/-- The method `unauthorizedBasicErrorResponse`. -/
def unauthorizedBasicErrorResponse (r : Request) (err : error) (st : St ω) : St ω :=
  let st1 := st.log ⟨"Warnf", "unauthorized error", requestFields r err⟩
  let st2 := { st1 with rw := st1.rw ++
    [rwCall.HeaderSet "WWW-Authenticate" "Basic realm=\"restricted\", charset=\"UTF-8\""] }
  (writeJSONError 401 "unauthorized" st2).2

/-- The method `jsonResponse`. -/
def jsonResponse (status : Nat) (data : Body) (st : St ω) : Option error × St ω :=
  writeJSON status data st

/-- The function `chi.URLParam`: the route parameter, `""` without one. -/
def chi.URLParam (r : Request) (key : String) : String :=
  (r.URLParams.lookup key).getD ""

/-! ## `users.go`, `posts.go`: reading the request scope -/

/-- The function `getUserFromContext`: the failed type assertion yields `nil`. -/
def getUserFromContext (r : Request) : Option store.User :=
  match context.Value r.ctx userCtx with
  | some (ctxValue.user u) => u
  | _ => none

/-- The function `getPostFromCtx`. -/
def getPostFromCtx (r : Request) : Option store.Post :=
  match context.Value r.ctx postCtx with
  | some (ctxValue.post p) => p
  | _ => none

/-! ## `middleware.go` -/

/-- The method `getUser`. -/
def getUser (app : application ω) (userID : Int) (st : St ω) :
    (Option store.User × Option error) × St ω :=
  if !app.config.redisCfg.enabled then
    (app.store.Users.GetByID st.world userID, st.call (Call.UsersGetByID userID))
  else
    let st1 := st.call (Call.CacheGet userID)
    match app.cacheStorage.Users.Get st1.world userID with
    | (_, some err) => ((none, some err), st1)
    | (some user, none) => ((some user, none), st1)
    | (none, none) =>
      let st2 := st1.call (Call.UsersGetByID userID)
      match app.store.Users.GetByID st2.world userID with
      | (_, some err) => ((none, some err), st2)
      | (user, none) =>
        let st3 := st2.call (Call.CacheSet user)
        let res := app.cacheStorage.Users.Set st3.world user
        let st4 : St ω := { st3 with world := res.2 }
        match res.1 with
        | some err => ((none, some err), st4)
        | none => ((user, none), st4)

/-- The method `AuthTokenMiddleware`. -/
def AuthTokenMiddleware (app : application ω) (next : Handler ω) : Handler ω := fun r st =>
  let authHeader := r.Header.Get "Authorization"
  if authHeader = "" then
    unauthorizedErrorResponse r (error.New "authorization header is missing") st
  else
    let parts := strings.Split authHeader ' '
    if parts.length ≠ 2 ∨ parts.getD 0 "" ≠ "Bearer" then
      unauthorizedErrorResponse r (error.New "authorization header is malformed") st
    else
      let token := parts.getD 1 ""
      let st1 := st.call (Call.ValidateToken token)
      match app.authenticator.ValidateToken st1.world token with
      | (_, some err) => unauthorizedErrorResponse r err st1
      | (none, none) => st1.nilDeref
      | (some jwtToken, none) =>
        let claims : jwt.MapClaims := jwtToken.Claims.getD []
        match strconv.ParseInt (fmt.Sprintf_f0 (claims.get "sub")) with
        | (_, some err) => unauthorizedErrorResponse r err st1
        | (userID, none) =>
          match getUser app userID st1 with
          | ((_, some err), st2) => unauthorizedErrorResponse r err st2
          | ((user, none), st2) =>
            next (r.WithContext (context.WithValue r.ctx userCtx (ctxValue.user user))) st2

/-- The method `checkRolePrecedence`; `none` when it panics on a nil pointer. -/
def checkRolePrecedence (app : application ω) (user : Option store.User) (roleName : String)
    (st : St ω) : Option (Bool × Option error) × St ω :=
  let st1 := st.call (Call.RolesGetByName roleName)
  match app.store.Roles.GetByName st1.world roleName with
  | (_, some err) => (some (false, some err), st1)
  | (role, none) =>
    match user, role with
    | some u, some ro => (some (decide (u.Role.Level ≥ ro.Level), none), st1)
    | _, _ => (none, st1.nilDeref)

/-- The method `checkPostOwnership`. -/
def checkPostOwnership (app : application ω) (requiredRole : String) (next : Handler ω) :
    Handler ω := fun r st =>
  match getPostFromCtx r, getUserFromContext r with
  | some post, some user =>
    if post.UserID = user.ID then next r st
    else
      match checkRolePrecedence app (some user) requiredRole st with
      | (none, st1) => st1
      | (some (_, some err), st1) => internalServerError r err st1
      | (some (allowed, none), st1) =>
        if !allowed then forbiddendResponse r st1 else next r st1
  | _, _ => st.nilDeref

/-- The method `RateLimiterMiddleware`: the rejection branch writes the
response and, having no `return`, falls through to `next.ServeHTTP`. -/
def RateLimiterMiddleware (app : application ω) (next : Handler ω) : Handler ω := fun r st =>
  let st3 :=
    if app.config.rateLimiter.Enabled then
      let st1 := st.call (Call.Allow r.RemoteAddr)
      let res := app.rateLimiter.Allow st1.world r.RemoteAddr
      let st2 : St ω := { st1 with world := res.2 }
      if !res.1.1 then rateLimitExceededResponse r res.1.2.String st2 else st2
    else st
  next r st3

/-! ## `posts.go`: the resource stage -/

/-- The method `postContextMiddleware`. -/
def postContextMiddleware (app : application ω) (next : Handler ω) : Handler ω := fun r st =>
  let idParam := chi.URLParam r "postID"
  match strconv.ParseInt idParam with
  | (_, some err) => internalServerError r err st
  | (id, none) =>
    let st1 := st.call (Call.PostsGetByID id)
    match app.store.Posts.GetByID st1.world id with
    | (_, some err) =>
      if errors.Is err store.ErrNotFound then notFoundResponse r err st1
      else internalServerError r err st1
    | (post, none) =>
      next (r.WithContext (context.WithValue r.ctx postCtx (ctxValue.post post))) st1

/-! ## `middleware.go`: the static credentials -/

/-- The method `BasicAuthMiddleware`. -/
def BasicAuthMiddleware (app : application ω) (next : Handler ω) : Handler ω := fun r st =>
  let authHeader := r.Header.Get "Authorization"
  if authHeader = "" then
    unauthorizedBasicErrorResponse r (error.New "authorization header is missing") st
  else
    let parts := strings.Split authHeader ' '
    if parts.length ≠ 2 ∨ parts.getD 0 "" ≠ "Basic" then
      unauthorizedBasicErrorResponse r (error.New "authorization header is malformed") st
    else
      match base64.DecodeString (parts.getD 1 "") with
      | (_, some err) => unauthorizedBasicErrorResponse r err st
      | (decoded, none) =>
        let username := app.configRest.auth.basic.user
        let pass := app.configRest.auth.basic.pass
        let creds := strings.SplitN decoded ':' 2
        if creds.length ≠ 2 ∨ creds.getD 0 "" ≠ username ∨ creds.getD 1 "" ≠ pass then
          unauthorizedBasicErrorResponse r (error.New "invalid credentials") st
        else next r st

/-! ## `auth.go`: issuing a token -/

/-- The type `CreateUserTokenPayload`. -/
structure CreateUserTokenPayload where
  Email : String
  Password : String
  deriving DecidableEq, Repr

/-- The parts of `createTokenHandler` that lie outside `cmd/api`: the decoding
of the body by `readJSON`, the check by `Validate.Struct`, and the comparison
of the password with the stored hash, `user.Password.Compare`. -/
structure createTokenEnv where
  readJSON : Request → CreateUserTokenPayload × Option error
  validate : CreateUserTokenPayload → Option error
  compare : store.User → String → Option error

/-- The method `createTokenHandler`. The claims are built in the order of the
source: each `time.Now()` is a reading of its own. -/
def createTokenHandler (app : application ω) (env : createTokenEnv) : Handler ω := fun r st =>
  match env.readJSON r with
  | (_, some err) => badRequestResponse r err st
  | (payload, none) =>
    match env.validate payload with
    | some err => badRequestResponse r err st
    | none =>
      let st1 := st.call (Call.UsersGetByEmail payload.Email)
      match app.store.Users.GetByEmail st1.world payload.Email with
      | (_, some err) =>
        if err = store.ErrNotFound then unauthorizedErrorResponse r err st1
        else internalServerError r err st1
      | (none, none) => st1.nilDeref
      | (some user, none) =>
        match env.compare user payload.Password with
        | some err =>
          unauthorizedErrorResponse r err (st1.log ⟨"fmt.Print", "", [logArg.errText err]⟩)
        | none =>
          let now1 := app.timeNow st1.world
          let st2 : St ω := { st1.call Call.TimeNow with world := now1.2 }
          let now2 := app.timeNow st2.world
          let st3 : St ω := { st2.call Call.TimeNow with world := now2.2 }
          let now3 := app.timeNow st3.world
          let st4 : St ω := { st3.call Call.TimeNow with world := now3.2 }
          let claims : jwt.MapClaims :=
            [("sub", jwt.Value.int64 user.ID),
             ("exp", jwt.Value.int64 (time.Unix (time.Add now1.1 app.configRest.auth.token.exp))),
             ("iat", jwt.Value.int64 (time.Unix now2.1)),
             ("nbf", jwt.Value.int64 (time.Unix now3.1)),
             ("iss", jwt.Value.string app.configRest.auth.token.iss),
             ("aud", jwt.Value.string app.configRest.auth.token.iss)]
          let st5 := st4.call (Call.GenerateToken claims)
          match app.authenticator.GenerateToken st5.world claims with
          | (_, some err) => internalServerError r err st5
          | (token, none) =>
            let res := jsonResponse 201 (Body.dataString token) st5
            match res.1 with
            | some err => internalServerError r err res.2
            | none => res.2

/-! ## `users.go`, `auth.go`: the handlers that write users -/

/-- The method `activateUserHandler`. -/
def activateUserHandler (app : application ω) : Handler ω := fun r st =>
  let token := chi.URLParam r "token"
  let st1 := st.call (Call.UsersActivate token)
  let res := app.store.Users.Activate st1.world token
  let st2 : St ω := { st1 with world := res.2 }
  match res.1 with
  | some err =>
    if err = store.ErrNotFound then notFoundResponse r err st2
    else internalServerError r err st2
  | none =>
    let out := jsonResponse 204 (Body.dataString "") st2
    match out.1 with
    | some err => internalServerError r err out.2
    | none => out.2

/-- The type `RegisterUserPayload`. -/
structure RegisterUserPayload where
  Username : String
  Email : String
  Password : String
  deriving DecidableEq, Repr

/-- The parts of `registerUserHandler` that lie outside `cmd/api`: the decoding
of the body, the validator, the hashing of the password
(`user.Password.Set`), the fresh token of `uuid.New()`, its SHA-256 digest in
hexadecimal, and the two sentinels of the user store for duplicates. -/
structure registerEnv where
  readJSON : Request → RegisterUserPayload × Option error
  validate : RegisterUserPayload → Option error
  passwordSet : String → Option error
  uuid : String
  sha256hex : String → String
  ErrDuplicateEmail : error
  ErrDuplicateUsername : error

/-- The method `registerUserHandler`. -/
def registerUserHandler (app : application ω) (env : registerEnv) : Handler ω := fun r st =>
  match env.readJSON r with
  | (_, some err) => badRequestResponse r err st
  | (payload, none) =>
    match env.validate payload with
    | some err => badRequestResponse r err st
    | none =>
      let user : store.User :=
        { ID := 0, Username := payload.Username, Email := payload.Email, Role := ⟨"user", 0⟩ }
      match env.passwordSet payload.Password with
      | some err => internalServerError r err st
      | none =>
        let plainToken := env.uuid
        let hashToken := env.sha256hex plainToken
        let st1 := st.call (Call.UsersCreateAndInvate user hashToken ⟨259200000000000⟩)
        let created := app.store.Users.CreateAndInvate st1.world user hashToken ⟨259200000000000⟩
        let st2 : St ω := { st1 with world := created.2 }
        match created.1.2 with
        | some err =>
          if err = env.ErrDuplicateEmail then badRequestResponse r err st2
          else if err = env.ErrDuplicateUsername then badRequestResponse r err st2
          else internalServerError r err st2
        | none =>
          let user1 := created.1.1
          let activationURL := app.configRest.frontedURL ++ "/confirm/" ++ plainToken
          let st3 := st2.call (Call.MailerSend user1.Email activationURL)
          let sent := app.mailer.Send st3.world user1.Email activationURL
          let st4 : St ω := { st3 with world := sent.2 }
          match sent.1 with
          | some err =>
            let st5 := st4.log ⟨"Errorf", "error sending welcome email",
              [logArg.str "error", logArg.errText err]⟩
            let st6 := st5.call (Call.UsersDelete user1.ID)
            let deleted := app.store.Users.Delete st6.world user1.ID
            let st7 : St ω := { st6 with world := deleted.2 }
            let st8 :=
              match deleted.1 with
              | some derr =>
                st7.log ⟨"Errorw", "error deleting user", [logArg.str "error", logArg.errText derr]⟩
              | none => st7
            internalServerError r err st8
          | none =>
            let out := jsonResponse 201 (Body.dataUserWithToken (some user1) plainToken) st4
            match out.1 with
            | some err => internalServerError r err out.2
            | none => out.2

/-! ## `posts.go`: updating a post -/

/-- The method `updatePost`: the error it returns, with the post as the store
left it (the post is passed by pointer). -/
def updatePost (app : application ω) (post : Option store.Post) (st : St ω) :
    (Option store.Post × Option error) × St ω :=
  let st1 := st.call (Call.PostsUpdate post)
  let res := app.store.Posts.Update st1.world post
  let st2 : St ω := { st1 with world := res.2 }
  match res.1 with
  | (post1, some err) => ((post1, some err), st2)
  | (none, none) => ((none, none), st2.nilDeref)
  | (some p, none) =>
    let st3 := st2.call (Call.CacheDelete p.ID)
    ((some p, none), { st3 with world := app.cacheStorage.Users.Delete st3.world p.ID })

/-- The type `UpdatePostPayload`. -/
structure UpdatePostPayload where
  Title : Option String
  Content : Option String
  deriving DecidableEq, Repr

/-- The parts of `updatePostHandler` that lie outside `cmd/api`: the decoding
of the body and the validator. -/
structure updatePostEnv where
  readJSON : Request → UpdatePostPayload × Option error
  validate : UpdatePostPayload → Option error

/-- The method `updatePostHandler`. After `internalServerError` for a failed
`updatePost` there is no `return`: the success response follows. -/
def updatePostHandler (app : application ω) (env : updatePostEnv) : Handler ω := fun r st =>
  let post := getPostFromCtx r
  match env.readJSON r with
  | (_, some err) => internalServerError r err st
  | (payload, none) =>
    match env.validate payload with
    | some err => badRequestResponse r err st
    | none =>
      match post, payload.Content, payload.Title with
      | none, some _, _ => st.nilDeref
      | none, none, some _ => st.nilDeref
      | _, _, _ =>
        let post1 := match post, payload.Content with
          | some p, some c => some { p with Content := c }
          | p, _ => p
        let post2 := match post1, payload.Title with
          | some p, some t => some { p with Title := t }
          | p, _ => p
        let updated := updatePost app post2 st
        if updated.2.panicked then updated.2
        else
          let st1 :=
            match updated.1.2 with
            | some err => internalServerError r err updated.2
            | none => updated.2
          let out := jsonResponse 200 (Body.dataPost updated.1.1) st1
          match out.1 with
          | some err => internalServerError r err out.2
          | none => out.2

/-! ## `feed.go` -/

/-- The parts of `getUserFeedHandler` that lie outside `cmd/api`: the method
`PaginatedFeedQuery.Parse` of the store and the validator. -/
structure feedEnv where
  Parse : store.PaginatedFeedQuery → Request → store.PaginatedFeedQuery × Option error
  validate : store.PaginatedFeedQuery → Option error

/-- The method `getUserFeedHandler`. The user id passed to `GetUserFeed` is the
constant `int64(71)` of the source. -/
def getUserFeedHandler (app : application ω) (env : feedEnv) : Handler ω := fun r st =>
  let fq0 : store.PaginatedFeedQuery := { Limit := 20, Offset := 0, SortOrder := "desc" }
  match env.Parse fq0 r with
  | (_, some err) => badRequestResponse r err st
  | (fq, none) =>
    match env.validate fq with
    | some err => badRequestResponse r err st
    | none =>
      let st1 := st.call (Call.PostsGetUserFeed 71 fq)
      match app.store.Posts.GetUserFeed st1.world 71 fq with
      | (_, some err) => internalServerError r err st1
      | (feed, none) =>
        let out := jsonResponse 200 (Body.dataFeed feed) st1
        match out.1 with
        | some err => internalServerError r err out.2
        | none => out.2

/-! ## A concrete world

The collaborators behind the interfaces are not part of `cmd/api`. The
definitions below give one instance of each, used to run the pipeline on
concrete requests. -/

/-- The per key state `RateWindow` of the limiter. -/
structure RateWindow where
  count : Nat
  windowStart : Nat
  deriving DecidableEq, Repr

/-- The state behind the collaborators: the clock (nanoseconds), the limiter
setting and windows, the cached users, the roles of the database; then the
posts and users of the database, the pending invitations (token and user id),
the ids of the activated users, the steps by which the clock advances at its
next readings, and whether the mailer fails. -/
structure World where
  now : Nat
  limit : Nat
  window : Nat
  windows : List (String × RateWindow)
  cached : List (Int × store.User)
  roles : List store.Role
  posts : List store.Post := []
  users : List store.User := []
  invites : List (String × Int) := []
  active : List Int := []
  ticks : List Nat := []
  mailFails : Bool := false
  deriving DecidableEq, Repr

namespace World

/-- Modelled from the spec: the fixed window limiter of `internal/ratelimiter`,
whose code is not among the sources. A limit of `0` disables the limiter. A
window is created on the first request of a key; a window older than `window`
is reset; the counter is incremented; above `limit` the call is rejected with
`retryAfter = window - (now - windowStart)`. -/
def Allow (w : World) (key : String) : (Bool × time.Duration) × World :=
  if w.limit = 0 then ((true, ⟨0⟩), w)
  else
    let cur : RateWindow := (w.windows.lookup key).getD ⟨0, w.now⟩
    let cur1 : RateWindow := if w.now - cur.windowStart ≥ w.window then ⟨0, w.now⟩ else cur
    let cur2 : RateWindow := ⟨cur1.count + 1, cur1.windowStart⟩
    let w1 : World := { w with windows := (key, cur2) :: w.windows.filter (fun e => e.1 ≠ key) }
    if cur2.count > w.limit then
      ((false, ⟨(w.window : Int) - ((w.now : Int) - (cur2.windowStart : Int))⟩), w1)
    else ((true, ⟨0⟩), w1)

/-- Modelled from the spec: `Get` of the entity cache of `internal/store/cache`,
whose code is not among the sources. A miss is the absent value, not an error. -/
def cacheGet (w : World) (userID : Int) : Option store.User × Option error :=
  (w.cached.lookup userID, none)

/-- Modelled from the spec: `Set` of the entity cache, which overwrites the
cached copy stored under the id of the entity. A nil entity is refused. -/
def cacheSet (w : World) (user : Option store.User) : Option error × World :=
  match user with
  | none => (some (error.New "cache: nil user"), w)
  | some u => (none, { w with cached := (u.ID, u) :: w.cached.filter (fun e => e.1 ≠ u.ID) })

/-- Modelled from the spec: `Delete` of the entity cache. -/
def cacheDelete (w : World) (userID : Int) : World :=
  { w with cached := w.cached.filter (fun e => e.1 ≠ userID) }

/-- Modelled from the spec: `GetByName` of the role store of `internal/store`,
whose code is not among the sources; an unknown name fails with `ErrNotFound`. -/
def rolesGetByName (w : World) (roleName : String) : Option store.Role × Option error :=
  match w.roles.find? (fun ro => ro.Name = roleName) with
  | some ro => (some ro, none)
  | none => (none, some store.ErrNotFound)

/-- Modelled from the spec: `GetByID` of the post store of `internal/store`,
whose code is not among the sources; an absent post fails with `ErrNotFound`. -/
def postsGetByID (w : World) (postID : Int) : Option store.Post × Option error :=
  match w.posts.find? (fun p => p.ID = postID) with
  | some p => (some p, none)
  | none => (none, some store.ErrNotFound)

/-- A post store `Update` for concrete runs: the stored post of the same id is
replaced; a nil or absent post fails with `ErrNotFound`. -/
def postsUpdate (w : World) (post : Option store.Post) :
    (Option store.Post × Option error) × World :=
  match post with
  | none => ((none, some store.ErrNotFound), w)
  | some p =>
    if w.posts.any (fun q => q.ID = p.ID) then
      ((some p, none), { w with posts := w.posts.map (fun q => if q.ID = p.ID then p else q) })
    else ((some p, some store.ErrNotFound), w)

/-- A post store `GetUserFeed` for concrete runs: the posts of the user. -/
def postsGetUserFeed (w : World) (userID : Int) (_fq : store.PaginatedFeedQuery) :
    List store.PostWithMetadata × Option error :=
  ((w.posts.filter (fun p => p.UserID = userID)).map (fun p => ⟨p⟩), none)

/-- A user store `GetByID` for concrete runs, on the users of the world. -/
def usersGetByID (w : World) (userID : Int) : Option store.User × Option error :=
  match w.users.find? (fun u => u.ID = userID) with
  | some u => (some u, none)
  | none => (none, some store.ErrNotFound)

/-- A user store `GetByEmail` for concrete runs. -/
def usersGetByEmail (w : World) (email : String) : Option store.User × Option error :=
  match w.users.find? (fun u => u.Email = email) with
  | some u => (some u, none)
  | none => (none, some store.ErrNotFound)

/-- A user store `CreateAndInvate` for concrete runs: the user gets the next
free id and is stored, with the invitation token. -/
def usersCreateAndInvate (w : World) (u : store.User) (token : String)
    (_invitationExp : time.Duration) : (store.User × Option error) × World :=
  let id : Int := ((w.users.map (fun x => x.ID.natAbs)).foldl max 0 : Nat) + 1
  let u1 : store.User := { u with ID := id }
  ((u1, none), { w with users := u1 :: w.users, invites := (token, id) :: w.invites })

/-- A user store `Activate` for concrete runs: the user of the invitation is
marked active and the invitation removed; an unknown token fails with
`ErrNotFound`. -/
def usersActivate (w : World) (token : String) : Option error × World :=
  match w.invites.lookup token with
  | some id =>
    (none, { w with active := id :: w.active,
                    invites := w.invites.filter (fun e => e.1 ≠ token) })
  | none => (some store.ErrNotFound, w)

/-- A user store `Delete` for concrete runs. -/
def usersDelete (w : World) (userID : Int) : Option error × World :=
  (none, { w with users := w.users.filter (fun u => u.ID ≠ userID),
                  invites := w.invites.filter (fun e => e.2 ≠ userID) })

/-- A mailer for concrete runs: it fails when the world says so. -/
def mailerSend (w : World) (_email _activationURL : String) : Option error × World :=
  (if w.mailFails then some (error.New "smtp: connection refused") else none, w)

/-- A clock for concrete runs: the reading is `now`; the clock then advances
by the next of the `ticks`. -/
def timeNow (w : World) : Int × World :=
  ((w.now : Int), { w with now := w.now + w.ticks.headD 0, ticks := w.ticks.tail })

end World

namespace store

/-- The method `MockUserStore.GetByID` of `mocks.go`. -/
def MockUserStore.GetByID (userID : Int) : Option User × Option error :=
  (some { ID := userID, Username := "", Email := "", Role := ⟨"", 0⟩ }, none)

end store

/-- An authenticator for concrete runs: the token text is the decimal subject;
any other text is rejected. -/
def demoValidateToken (token : String) : Option jwt.Token × Option error :=
  match strconv.ParseUint token.data with
  | (n, none) => (some ⟨some [("sub", jwt.Value.number (float64.ofNat false n))]⟩, none)
  | (_, some _) => (none, some (error.New "token is malformed"))

/-- An authenticator `GenerateToken` for concrete runs: the token text is the
decimal subject. -/
def demoGenerateToken (claims : jwt.MapClaims) : String × Option error :=
  match claims.get "sub" with
  | jwt.Value.int64 i => ((if i < 0 then "-" else "") ++ Nat.repr i.natAbs, none)
  | _ => ("", some (error.New "token has no subject"))

/-- The configuration of the credentials for concrete runs: the defaults of
`main.go`. -/
def demoConfigRest : configRest :=
  { auth := { basic := ⟨"admin", "admin"⟩, token := ⟨⟨172800000000000⟩, "gophersocial"⟩ },
    frontedURL := "localhost:4000" }

/-- The application over `World`, with the given configuration. -/
def demoApp (cfg : config) : application World :=
  { config := cfg
    store := { Users := { GetByID := fun _ id => store.MockUserStore.GetByID id,
                          GetByEmail := World.usersGetByEmail,
                          CreateAndInvate := World.usersCreateAndInvate,
                          Activate := World.usersActivate,
                          Delete := World.usersDelete },
               Roles := ⟨World.rolesGetByName⟩,
               Posts := ⟨World.postsGetByID, World.postsUpdate, World.postsGetUserFeed⟩ }
    cacheStorage := { Users := ⟨World.cacheGet, World.cacheSet, World.cacheDelete⟩ }
    authenticator := ⟨fun _ t => demoValidateToken t, fun _ c => demoGenerateToken c⟩
    rateLimiter := ⟨World.Allow⟩
    configRest := demoConfigRest
    mailer := ⟨World.mailerSend⟩
    timeNow := World.timeNow }

/-- A world with an empty cache, the roles `user`, `moderator`, `admin`, and a
limiter admitting one request per five seconds. -/
def demoWorld : World :=
  { now := 0, limit := 1, window := 5000000000, windows := [], cached := [],
    roles := [⟨"user", 1⟩, ⟨"moderator", 2⟩, ⟨"admin", 3⟩] }

/-- A request from `1.2.3.4` with the given `Authorization` header. -/
def demoRequest (auth : String) : Request :=
  { Method := "GET", Path := "/v1/posts/1", RemoteAddr := "1.2.3.4",
    Header := [("Authorization", [auth])], URLParams := [], ctx := [] }

/-- The calls on the response writer that make the "unauthorized" response. -/
def unauthorizedResponse : List rwCall :=
  [rwCall.HeaderSet "Content-Type" "application/json", rwCall.WriteHeader 401,
   rwCall.Encode (Body.errorEnvelope "unauthorized")]

/-- The calls on the response writer that make the "too many requests" response
with the retry hint `retryAfter`. -/
def rateLimitResponse (retryAfter : String) : List rwCall :=
  [rwCall.HeaderSet "Retry-After" retryAfter,
   rwCall.HeaderSet "Content-Type" "application/json", rwCall.WriteHeader 429,
   rwCall.Encode (Body.errorEnvelope ("rate limit exceeded, retry after: " ++ retryAfter))]

/-- Whether a recorded call is the serving of the next handler. -/
def Call.isServeHTTP : Call → Bool
  | Call.ServeHTTP _ => true
  | _ => false

/-- A world whose limiter has already admitted one request of `1.2.3.4` in the
window that started at time `0`; half a second has passed. -/
def busyWorld : World :=
  { demoWorld with now := 500000000, windows := [("1.2.3.4", ⟨1, 0⟩)] }

/-- Whether `AuthTokenMiddleware` rejects the request `r` in the world `w`: the
run, with the recording handler as next, ends without a panic and without the
next handler having been served. -/
def rejects {ω : Type} (app : application ω) (r : Request) (w : ω) : Bool :=
  let out := AuthTokenMiddleware app recordNext r (St.init w)
  !out.panicked && out.calls.all (fun c => !c.isServeHTTP)

/-- Modelled from the spec: the claims read back from a token issued with
`sub = S`. The authenticator of `internal/auth` (`GenerateToken`,
`ValidateToken`) is not among the sources; the token carries the subject as a
JSON integer, and the generic claims map holds a JSON number as the nearest
`float64`. -/
def issuedClaims (S : Int) : jwt.MapClaims :=
  [("sub", jwt.Value.number (float64.ofInt S))]

/-- The request scope that `AuthTokenMiddleware` hands on for the user `u`. -/
def withUser (r : Request) (u : Option store.User) : Request :=
  r.WithContext (context.WithValue r.ctx userCtx (ctxValue.user u))

/-- The calls on the response writer that make the 500 response, with its
fixed message. -/
def internalErrorResponse : List rwCall :=
  [rwCall.HeaderSet "Content-Type" "application/json", rwCall.WriteHeader 500,
   rwCall.Encode (Body.errorEnvelope "the server encountered a problem")]

/-- The calls on the response writer that make the 403 response. -/
def forbiddenResponse : List rwCall :=
  [rwCall.HeaderSet "Content-Type" "application/json", rwCall.WriteHeader 403,
   rwCall.Encode (Body.errorEnvelope "forbidden")]

/-- A request whose scope holds the user `u` and the post `p`, as the
authentication and resource stages leave it. -/
def scopedRequest (u : store.User) (p : store.Post) : Request :=
  { demoRequest "Bearer 1" with
    ctx := context.WithValue (context.WithValue [] userCtx (ctxValue.user (some u)))
      postCtx (ctxValue.post (some p)) }

/-- A user of the given id and role. -/
def demoUser (id : Int) (role : store.Role) : store.User :=
  { ID := id, Username := "gopher", Email := "gopher@example.com", Role := role }

/-- A post of the given id and owner. -/
def demoPost (id owner : Int) : store.Post :=
  { ID := id, UserID := owner, Title := "title", Content := "content" }

/-- Whether a model value is a `float64` of the machine: a significand of at
most 53 bits and an exponent in range. -/
def float64.valid : float64 → Bool
  | float64.finite _ mant exp => decide (mant < 2 ^ 53) && decide (-1074 ≤ exp) && decide (exp ≤ 971)
  | _ => true

/-- Whether a claims value can occur: any value, its numbers being machine
numbers. -/
def jwt.Value.valid : jwt.Value → Bool
  | jwt.Value.number f => f.valid
  | _ => true

/-- The calls on the response writer that make the 400 response for the
error `err`. -/
def badRequestResponseFor (err : error) : List rwCall :=
  [rwCall.HeaderSet "Content-Type" "application/json", rwCall.WriteHeader 400,
   rwCall.Encode (Body.errorOf err)]

/-- The calls on the response writer that make the 404 response. -/
def notFoundResponseCalls : List rwCall :=
  [rwCall.HeaderSet "Content-Type" "application/json", rwCall.WriteHeader 404,
   rwCall.Encode (Body.errorEnvelope "not found")]

/-- The request scope that `postContextMiddleware` hands on for the post `p`. -/
def withPost (r : Request) (p : Option store.Post) : Request :=
  r.WithContext (context.WithValue r.ctx postCtx (ctxValue.post p))

/-- A request for the post of the given route identifier, with the given scope. -/
def postRequest (postID : String) (ctx : Context) : Request :=
  { demoRequest "Bearer 5" with URLParams := [("postID", postID)], ctx := ctx }

/-- The demo world with two posts, `9` of user `5` and `10` of user `6`. -/
def postsWorld : World :=
  { demoWorld with posts := [demoPost 9 5, demoPost 10 6] }

/-- The calls on the response writer that make the 401 response of the static
credentials, with its challenge header. -/
def basicChallengeResponse : List rwCall :=
  [rwCall.HeaderSet "WWW-Authenticate" "Basic realm=\"restricted\", charset=\"UTF-8\"",
   rwCall.HeaderSet "Content-Type" "application/json", rwCall.WriteHeader 401,
   rwCall.Encode (Body.errorEnvelope "unauthorized")]

/-- The demo application with the static credentials `user` and `pass`. -/
def basicApp (user pass : String) : application World :=
  { demoApp ⟨⟨true⟩, ⟨true⟩⟩ with
    configRest := { demoConfigRest with
      auth := { demoConfigRest.auth with basic := ⟨user, pass⟩ } } }

/-- Whether two errors returned by a collaborator send the code down the same
branch: both nil, or both errors that `errors.Is` judges alike against
`ErrNotFound`. -/
def sameBranch : Option error → Option error → Bool
  | none, none => true
  | some a, some b => errors.Is a store.ErrNotFound == errors.Is b store.ErrNotFound
  | _, _ => false

/-- Two results of a collaborator that differ at most in the value of the
error: the same branch, and the same value when there is no error. -/
def alikeResult {α : Type} (x y : α × Option error) : Prop :=
  sameBranch x.2 y.2 = true ∧ (x.2 = none → x.1 = y.1)

/-- Two applications that differ at most in the values of the errors that
their collaborators return to the four stages. -/
def alike {ω : Type} (app1 app2 : application ω) : Prop :=
  app1.config = app2.config ∧ app1.configRest = app2.configRest ∧
  (∀ w t, alikeResult (app1.authenticator.ValidateToken w t) (app2.authenticator.ValidateToken w t)) ∧
  (∀ w id, alikeResult (app1.store.Users.GetByID w id) (app2.store.Users.GetByID w id)) ∧
  (∀ w id, alikeResult (app1.cacheStorage.Users.Get w id) (app2.cacheStorage.Users.Get w id)) ∧
  (∀ w u, sameBranch (app1.cacheStorage.Users.Set w u).1 (app2.cacheStorage.Users.Set w u).1 = true ∧
    (app1.cacheStorage.Users.Set w u).2 = (app2.cacheStorage.Users.Set w u).2) ∧
  (∀ w n, alikeResult (app1.store.Roles.GetByName w n) (app2.store.Roles.GetByName w n)) ∧
  (∀ w id, alikeResult (app1.store.Posts.GetByID w id) (app2.store.Posts.GetByID w id))

/-- What a client and the collaborators see of a run: the calls on the response
writer, the collaborator calls, the world, and whether the run panicked. The
logger is left out. -/
def St.seen {ω : Type} (st : St ω) : List rwCall × List Call × ω × Bool :=
  (st.rw, st.calls, st.world, st.panicked)

/-- The demo application whose authenticator, user store, role store and post
store all fail with the error `e`. -/
def failingApp (e : error) : application World :=
  { demoApp ⟨⟨false⟩, ⟨true⟩⟩ with
    store := { Users := { GetByID := fun _ _ => (none, some e),
                          GetByEmail := World.usersGetByEmail,
                          CreateAndInvate := World.usersCreateAndInvate,
                          Activate := World.usersActivate,
                          Delete := World.usersDelete },
               Roles := ⟨fun _ _ => (none, some e)⟩,
               Posts := ⟨fun _ _ => (none, some e), World.postsUpdate, World.postsGetUserFeed⟩ } }

/-- The claim set of the spec for the subject `sub`, the instant `now`
(nanoseconds since the epoch), the lifetime and the issuer. -/
def specClaims (sub now : Int) (lifetime : time.Duration) (iss : String) : jwt.MapClaims :=
  [("sub", jwt.Value.int64 sub),
   ("exp", jwt.Value.int64 (time.Unix now + time.Unix lifetime.ns)),
   ("iat", jwt.Value.int64 (time.Unix now)),
   ("nbf", jwt.Value.int64 (time.Unix now)),
   ("iss", jwt.Value.string iss),
   ("aud", jwt.Value.string iss)]

/-- A decoding for concrete runs: the body is the payload of `gopher`, always
valid, and every password matches. -/
def demoTokenEnv : createTokenEnv :=
  { readJSON := fun _ => (⟨"gopher@example.com", "secret"⟩, none)
    validate := fun _ => none
    compare := fun _ _ => none }

/-- A world with the user `gopher`, in which the clock stands one nanosecond
before the second `1` and passes it between the first and the second reading. -/
def tickingWorld : World :=
  { demoWorld with now := 999999999, ticks := [1, 0, 0],
                   users := [demoUser 5 ⟨"user", 1⟩] }

/-- The demo application with a token lifetime of one second and a half. -/
def halfSecondApp : application World :=
  { demoApp ⟨⟨false⟩, ⟨false⟩⟩ with
    configRest := { demoConfigRest with
      auth := { demoConfigRest.auth with token := ⟨⟨1500000000⟩, "gophersocial"⟩ } } }

/-- A world with the user `gopher`, in which the clock stands still at 0.6 s. -/
def stillWorld : World :=
  { demoWorld with now := 600000000, users := [demoUser 5 ⟨"user", 1⟩] }

/-- The demo application with the cache enabled and the user store of the
world in place of the mock. -/
def worldApp : application World :=
  { demoApp ⟨⟨true⟩, ⟨false⟩⟩ with
    store := { Users := { GetByID := World.usersGetByID,
                          GetByEmail := World.usersGetByEmail,
                          CreateAndInvate := World.usersCreateAndInvate,
                          Activate := World.usersActivate,
                          Delete := World.usersDelete },
               Roles := ⟨World.rolesGetByName⟩,
               Posts := ⟨World.postsGetByID, World.postsUpdate, World.postsGetUserFeed⟩ } }

/-- A world in which the user 7 is stored and cached and has a pending
invitation with the token `tok`. -/
def invitedWorld : World :=
  { demoWorld with users := [demoUser 7 ⟨"user", 1⟩], cached := [(7, demoUser 7 ⟨"user", 1⟩)],
                   invites := [("tok", 7)] }

/-- A request routed with the activation token `tok`. -/
def activationRequest : Request :=
  { demoRequest "" with URLParams := [("token", "tok")] }

/-- A world in which the mailer fails and the cache holds an entry under the
id 6, the id that the next user gets. -/
def mailDownWorld : World :=
  { demoWorld with users := [demoUser 5 ⟨"user", 1⟩], cached := [(6, demoUser 6 ⟨"user", 1⟩)],
                   mailFails := true }

/-- A decoding for concrete runs of the registration: the payload of `newbie`,
valid, with the token `uuid-1`. -/
def demoRegisterEnv : registerEnv :=
  { readJSON := fun _ => (⟨"newbie", "newbie@example.com", "secret"⟩, none)
    validate := fun _ => none
    passwordSet := fun _ => none
    uuid := "uuid-1"
    sha256hex := fun t => "sha256:" ++ t
    ErrDuplicateEmail := error.New "a user with that email already exists"
    ErrDuplicateUsername := error.New "a user with that username already exists" }

/-- The post `p` with the fields of the payload written into it, content first. -/
def patched (p : store.Post) (payload : UpdatePostPayload) : store.Post :=
  let p1 := match payload.Content with
    | some c => { p with Content := c }
    | none => p
  match payload.Title with
  | some t => { p1 with Title := t }
  | none => p1

/-- The calls on the response writer that make the 200 response with a post. -/
def postResponse (p : Option store.Post) : List rwCall :=
  [rwCall.HeaderSet "Content-Type" "application/json", rwCall.WriteHeader 200,
   rwCall.Encode (Body.dataPost p)]

/-- A decoding for concrete runs of the update: a payload with a new title. -/
def demoUpdateEnv : updatePostEnv :=
  { readJSON := fun _ => (⟨some "new title", none⟩, none)
    validate := fun _ => none }

/-- The world of the two posts in which the cache holds entries under the ids
9 and 5. -/
def cachedPostsWorld : World :=
  { postsWorld with cached := [(9, demoUser 9 ⟨"user", 1⟩), (5, demoUser 5 ⟨"user", 1⟩)] }

/-- A feed query decoding for concrete runs: the defaults, always valid. -/
def demoFeedEnv : feedEnv :=
  { Parse := fun fq _ => (fq, none)
    validate := fun _ => none }

/-! # Properties of the pipeline -/

section Responses

variable {ω : Type}

theorem unauthorizedErrorResponse_rw (r : Request) (err : error) (st : St ω) :
    (unauthorizedErrorResponse r err st).rw = st.rw ++ unauthorizedResponse := rfl

theorem unauthorizedErrorResponse_calls (r : Request) (err : error) (st : St ω) :
    (unauthorizedErrorResponse r err st).calls = st.calls := rfl

theorem unauthorizedErrorResponse_world (r : Request) (err : error) (st : St ω) :
    (unauthorizedErrorResponse r err st).world = st.world := rfl

theorem unauthorizedErrorResponse_panicked (r : Request) (err : error) (st : St ω) :
    (unauthorizedErrorResponse r err st).panicked = st.panicked := rfl

theorem rateLimitExceededResponse_rw (r : Request) (hint : String) (st : St ω) :
    (rateLimitExceededResponse r hint st).rw = st.rw ++ rateLimitResponse hint := by
  simp [rateLimitExceededResponse, writeJSONError, writeJSON, St.log, rateLimitResponse]

theorem rateLimitExceededResponse_calls (r : Request) (hint : String) (st : St ω) :
    (rateLimitExceededResponse r hint st).calls = st.calls := rfl

end Responses

section RateLimit

variable {ω : Type}

/-- C1 (the code departs from it). With rate limiting enabled and the limiter
rejecting the client address, `RateLimiterMiddleware` writes the 429 response
with the retry hint and then still serves the next handler, on the state that
already holds that response: with the recording handler the calls end with
`ServeHTTP r`. The pipeline is not terminated. -/
theorem RateLimiterMiddleware_rejected_falls_through (app : application ω) (next : Handler ω)
    (r : Request) (st : St ω)
    (hen : app.config.rateLimiter.Enabled = true)
    (hrej : (app.rateLimiter.Allow st.world r.RemoteAddr).1.1 = false) :
    (∃ st1 : St ω,
        st1.rw = st.rw ++ rateLimitResponse (app.rateLimiter.Allow st.world r.RemoteAddr).1.2.String ∧
        st1.calls = st.calls ++ [Call.Allow r.RemoteAddr] ∧
        RateLimiterMiddleware app next r st = next r st1) ∧
      (RateLimiterMiddleware app recordNext r st).calls =
        st.calls ++ [Call.Allow r.RemoteAddr, Call.ServeHTTP r] := by
  constructor
  · refine ⟨rateLimitExceededResponse r (app.rateLimiter.Allow st.world r.RemoteAddr).1.2.String
      { st.call (Call.Allow r.RemoteAddr) with
        world := (app.rateLimiter.Allow st.world r.RemoteAddr).2 }, ?_, ?_, ?_⟩
    · rw [rateLimitExceededResponse_rw]; rfl
    · rw [rateLimitExceededResponse_calls]; rfl
    · simp [RateLimiterMiddleware, hen, hrej, St.call]
  · simp [RateLimiterMiddleware, hen, hrej, St.call, recordNext, rateLimitExceededResponse,
      writeJSONError, writeJSON, St.log]

/-- The second request of `1.2.3.4` within the window is rejected with the hint
`4.5s`, the 429 response is written, and the next handler is served all the same. -/
theorem RateLimiterMiddleware_rejected_falls_through_witness :
    (demoApp ⟨⟨false⟩, ⟨true⟩⟩).config.rateLimiter.Enabled = true ∧
    ((demoApp ⟨⟨false⟩, ⟨true⟩⟩).rateLimiter.Allow (St.init busyWorld).world
        (demoRequest "").RemoteAddr).1 = (false, ⟨4500000000⟩) ∧
    (RateLimiterMiddleware (demoApp ⟨⟨false⟩, ⟨true⟩⟩) recordNext (demoRequest "")
        (St.init busyWorld)).rw = rateLimitResponse "4.5s" ∧
    (RateLimiterMiddleware (demoApp ⟨⟨false⟩, ⟨true⟩⟩) recordNext (demoRequest "")
        (St.init busyWorld)).calls = [Call.Allow "1.2.3.4", Call.ServeHTTP (demoRequest "")] :=
  ⟨rfl, by decide, by decide,
    (RateLimiterMiddleware_rejected_falls_through (demoApp ⟨⟨false⟩, ⟨true⟩⟩) recordNext
      (demoRequest "") (St.init busyWorld) rfl (by decide)).2⟩

end RateLimit

section GetUserFrame

variable {ω : Type}

theorem getUser_rw (app : application ω) (userID : Int) (st : St ω) :
    (getUser app userID st).2.rw = st.rw := by
  unfold getUser
  split
  · rfl
  · dsimp only
    split
    · rfl
    · rfl
    · split
      · rfl
      · split <;> rfl

theorem getUser_panicked (app : application ω) (userID : Int) (st : St ω) :
    (getUser app userID st).2.panicked = st.panicked := by
  unfold getUser
  split
  · rfl
  · dsimp only
    split
    · rfl
    · rfl
    · split
      · rfl
      · split <;> rfl

end GetUserFrame

section Authentication

variable {ω : Type}

/-- The three ways a run of `AuthTokenMiddleware` with the recording handler
ends: the unauthorized response and nothing served; a panic; or the next
handler served last, nothing written. -/
theorem AuthTokenMiddleware_outcome (app : application ω) (r : Request) (st : St ω) :
    ((AuthTokenMiddleware app recordNext r st).rw = st.rw ++ unauthorizedResponse) ∨
    ((AuthTokenMiddleware app recordNext r st).panicked = true) ∨
    (∃ q cs, (AuthTokenMiddleware app recordNext r st).calls = cs ++ [Call.ServeHTTP q]) := by
  unfold AuthTokenMiddleware
  dsimp only
  split
  · exact Or.inl rfl
  · split
    · exact Or.inl rfl
    · split
      · exact Or.inl rfl
      · exact Or.inr (Or.inl rfl)
      · split
        · exact Or.inl rfl
        · split
          · next st2 heq =>
            left
            rw [unauthorizedErrorResponse_rw]
            have hrw := congrArg (fun x => x.2.rw) heq
            simp only [getUser_rw] at hrw
            rw [← hrw]; rfl
          · exact Or.inr (Or.inr ⟨_, _, rfl⟩)

/-- A rejected request has exactly the unauthorized response written. -/
theorem rw_of_rejects (app : application ω) (r : Request) (w : ω)
    (h : rejects app r w = true) :
    (AuthTokenMiddleware app recordNext r (St.init w)).rw = unauthorizedResponse := by
  simp only [rejects, Bool.and_eq_true, Bool.not_eq_true', List.all_eq_true] at h
  rcases AuthTokenMiddleware_outcome app r (St.init w) with h1 | h1 | ⟨q, cs, h1⟩
  · simpa [St.init] using h1
  · rw [h.1] at h1; cases h1
  · have := h.2 (Call.ServeHTTP q) (by rw [h1]; simp)
    simp [Call.isServeHTTP] at this

/-- C2. A request whose `Authorization` header is missing (reads as `""`), or
does not split at spaces into exactly two parts, or whose first part is not
`Bearer`, is answered by `AuthTokenMiddleware` with the 401 "unauthorized"
response and nothing else: no collaborator call is recorded (no
`ValidateToken`, no cache, no store), the world is unchanged, and the outcome
is the same for every next handler, so that the next handler is not served. -/
theorem AuthTokenMiddleware_malformed_header (app : application ω) (next : Handler ω)
    (r : Request) (st : St ω)
    (h : r.Header.Get "Authorization" = "" ∨
        (strings.Split (r.Header.Get "Authorization") ' ').length ≠ 2 ∨
        (strings.Split (r.Header.Get "Authorization") ' ').getD 0 "" ≠ "Bearer") :
    (AuthTokenMiddleware app next r st).rw = st.rw ++ unauthorizedResponse ∧
    (AuthTokenMiddleware app next r st).calls = st.calls ∧
    (AuthTokenMiddleware app next r st).world = st.world ∧
    (AuthTokenMiddleware app next r st).panicked = st.panicked ∧
    (∀ next2 : Handler ω, AuthTokenMiddleware app next2 r st = AuthTokenMiddleware app next r st) := by
  by_cases h0 : r.Header.Get "Authorization" = ""
  · simp [AuthTokenMiddleware, h0, unauthorizedErrorResponse_rw, unauthorizedErrorResponse_calls,
      unauthorizedErrorResponse_world, unauthorizedErrorResponse_panicked]
  · have h1 : (strings.Split (r.Header.Get "Authorization") ' ').length ≠ 2 ∨
        (strings.Split (r.Header.Get "Authorization") ' ').getD 0 "" ≠ "Bearer" := by
      rcases h with h | h
      · exact absurd h h0
      · exact h
    simp only [AuthTokenMiddleware, h0, h1, if_true, if_false, unauthorizedErrorResponse_rw,
      unauthorizedErrorResponse_calls, unauthorizedErrorResponse_world,
      unauthorizedErrorResponse_panicked, implies_true, and_self]

/-- The header `Token abc` has the wrong scheme: 401, no call at all. -/
theorem AuthTokenMiddleware_malformed_header_witness :
    (strings.Split ((demoRequest "Token abc").Header.Get "Authorization") ' ').getD 0 "" ≠ "Bearer" ∧
    (AuthTokenMiddleware (demoApp ⟨⟨true⟩, ⟨true⟩⟩) recordNext (demoRequest "Token abc")
        (St.init demoWorld)).rw = unauthorizedResponse ∧
    (AuthTokenMiddleware (demoApp ⟨⟨true⟩, ⟨true⟩⟩) recordNext (demoRequest "Token abc")
        (St.init demoWorld)).calls = [] :=
  ⟨by decide,
    (AuthTokenMiddleware_malformed_header (demoApp ⟨⟨true⟩, ⟨true⟩⟩) recordNext
      (demoRequest "Token abc") (St.init demoWorld) (Or.inr (Or.inr (by decide)))).1,
    (AuthTokenMiddleware_malformed_header (demoApp ⟨⟨true⟩, ⟨true⟩⟩) recordNext
      (demoRequest "Token abc") (St.init demoWorld) (Or.inr (Or.inr (by decide)))).2.1⟩

/-- C3. Any two requests that `AuthTokenMiddleware` rejects, in whatever
application and world and for whatever cause, get the same response: the calls
on the response writer are in both runs exactly the content type header, the
status 401 and the body with the error text "unauthorized". The error value of
the cause is not part of it. -/
theorem AuthTokenMiddleware_rejections_indistinguishable {ω1 ω2 : Type}
    (app1 : application ω1) (app2 : application ω2) (r1 r2 : Request) (w1 : ω1) (w2 : ω2)
    (h1 : rejects app1 r1 w1 = true) (h2 : rejects app2 r2 w2 = true) :
    (AuthTokenMiddleware app1 recordNext r1 (St.init w1)).rw =
      (AuthTokenMiddleware app2 recordNext r2 (St.init w2)).rw ∧
    (AuthTokenMiddleware app1 recordNext r1 (St.init w1)).rw =
      [rwCall.HeaderSet "Content-Type" "application/json", rwCall.WriteHeader 401,
       rwCall.Encode (Body.errorEnvelope "unauthorized")] := by
  rw [rw_of_rejects app1 r1 w1 h1, rw_of_rejects app2 r2 w2 h2]
  exact ⟨rfl, rfl⟩

/-- A missing header and a token that the authenticator rejects are both
rejected, and answered alike. -/
theorem AuthTokenMiddleware_rejections_indistinguishable_witness :
    rejects (demoApp ⟨⟨true⟩, ⟨true⟩⟩) (demoRequest "") demoWorld = true ∧
    rejects (demoApp ⟨⟨false⟩, ⟨true⟩⟩) (demoRequest "Bearer abc") busyWorld = true ∧
    (AuthTokenMiddleware (demoApp ⟨⟨true⟩, ⟨true⟩⟩) recordNext (demoRequest "")
        (St.init demoWorld)).rw =
      (AuthTokenMiddleware (demoApp ⟨⟨false⟩, ⟨true⟩⟩) recordNext (demoRequest "Bearer abc")
        (St.init busyWorld)).rw :=
  ⟨by decide, by decide,
    (AuthTokenMiddleware_rejections_indistinguishable (demoApp ⟨⟨true⟩, ⟨true⟩⟩)
      (demoApp ⟨⟨false⟩, ⟨true⟩⟩) (demoRequest "") (demoRequest "Bearer abc") demoWorld busyWorld
      (by decide) (by decide)).1⟩

/-- C4 (the code departs from it). The subject `2^53 + 1` does not survive the
reading back: held as a `float64`, printed with `%.f` and parsed, it comes out
as `2^53`, without any error, and `AuthTokenMiddleware` then looks up and
attaches the user `2^53`, another identity. The subject `2^63 - 1` is printed
as `2^63`, which `ParseInt` refuses as out of range. Both values read back are
machine numbers. -/
theorem AuthTokenMiddleware_subject_precision_loss :
    strconv.ParseInt (fmt.Sprintf_f0 ((issuedClaims 9007199254740993).get "sub")) =
      (9007199254740992, none) ∧
    (AuthTokenMiddleware (demoApp ⟨⟨false⟩, ⟨false⟩⟩) recordNext
        (demoRequest "Bearer 9007199254740993") (St.init demoWorld)).calls =
      [Call.ValidateToken "9007199254740993", Call.UsersGetByID 9007199254740992,
       Call.ServeHTTP (withUser (demoRequest "Bearer 9007199254740993")
         (store.MockUserStore.GetByID 9007199254740992).1)] ∧
    strconv.ParseInt (fmt.Sprintf_f0 ((issuedClaims 9223372036854775807).get "sub")) =
      (9223372036854775807,
        some (error.NumError "ParseInt" "9223372036854775808" strconv.ErrRange)) ∧
    ((issuedClaims 9007199254740993).get "sub").valid = true ∧
    ((issuedClaims 9223372036854775807).get "sub").valid = true := by
  refine ⟨by decide, by decide, by decide, by decide, by decide⟩

/-- The calls of `getUser` never include the serving of a handler. -/
theorem getUser_calls_filter (app : application ω) (userID : Int) (st : St ω) :
    (getUser app userID st).2.calls.filter Call.isServeHTTP =
      st.calls.filter Call.isServeHTTP := by
  unfold getUser
  split
  · simp [St.call, Call.isServeHTTP]
  · dsimp only
    split
    · simp [St.call, Call.isServeHTTP]
    · simp [St.call, Call.isServeHTTP]
    · split
      · simp [St.call, Call.isServeHTTP]
      · split <;> simp [St.call, Call.isServeHTTP]

/-- The last step of `AuthTokenMiddleware`. A request with the header
`Bearer <token>`, whose token the authenticator validates, whose `sub` claim
line 38 reads back as the id `S`, and for which `getUser S` returns the identity
`u` without error, is handed on: whatever the next handler, the outcome is that
handler run once on the request carrying `u`, on the state that `getUser` left;
`getUserFromContext` on that request returns `u`; the middleware has written
nothing; and with the recording handler exactly one serving is added to the
calls. The id `S` here is the one read back, which need not be the subject the
token was issued with. -/
theorem AuthTokenMiddleware_hands_on (app : application ω) (next : Handler ω)
    (r : Request) (st : St ω) (token : String) (jwtToken : jwt.Token) (S : Int)
    (u : store.User) (st2 : St ω)
    (hne : r.Header.Get "Authorization" ≠ "")
    (hparts : strings.Split (r.Header.Get "Authorization") ' ' = ["Bearer", token])
    (hval : app.authenticator.ValidateToken st.world token = (some jwtToken, none))
    (hsub : strconv.ParseInt (fmt.Sprintf_f0 ((jwtToken.Claims.getD []).get "sub")) = (S, none))
    (huser : getUser app S (st.call (Call.ValidateToken token)) = ((some u, none), st2)) :
    AuthTokenMiddleware app next r st = next (withUser r (some u)) st2 ∧
    getUserFromContext (withUser r (some u)) = some u ∧
    st2.rw = st.rw ∧
    (AuthTokenMiddleware app recordNext r st).calls.filter Call.isServeHTTP =
      st.calls.filter Call.isServeHTTP ++ [Call.ServeHTTP (withUser r (some u))] := by
  have hmain : ∀ nx : Handler ω, AuthTokenMiddleware app nx r st = nx (withUser r (some u)) st2 := by
    intro nx
    have hval1 : app.authenticator.ValidateToken (st.call (Call.ValidateToken token)).world token =
        (some jwtToken, none) := hval
    simp only [AuthTokenMiddleware, hne, hparts, if_false, List.length_cons, List.length_nil,
      List.getD_cons_zero, List.getD_cons_succ, ne_eq, not_true_eq_false, or_self,
      hval1, hsub, huser, withUser]
  have hrw : st2.rw = st.rw := by
    have := getUser_rw app S (st.call (Call.ValidateToken token))
    rw [huser] at this
    exact this
  have hcalls : st2.calls.filter Call.isServeHTTP = st.calls.filter Call.isServeHTTP := by
    have := getUser_calls_filter app S (st.call (Call.ValidateToken token))
    rw [huser] at this
    simpa [St.call, Call.isServeHTTP] using this
  refine ⟨hmain next, ?_, hrw, ?_⟩
  · simp [getUserFromContext, withUser, Request.WithContext, context.WithValue, context.Value,
      List.lookup]
  · rw [hmain recordNext]
    simp [recordNext, St.call, hcalls, Call.isServeHTTP]

/-- The token `7` of the demo authenticator: the mock user `7` is attached and
the next handler served once. -/
theorem AuthTokenMiddleware_hands_on_witness :
    (AuthTokenMiddleware (demoApp ⟨⟨true⟩, ⟨false⟩⟩) recordNext (demoRequest "Bearer 7")
        (St.init demoWorld)).calls.filter Call.isServeHTTP =
      [Call.ServeHTTP (withUser (demoRequest "Bearer 7")
        (some ⟨7, "", "", ⟨"", 0⟩⟩))] ∧
    getUserFromContext (withUser (demoRequest "Bearer 7") (some ⟨7, "", "", ⟨"", 0⟩⟩)) =
      some ⟨7, "", "", ⟨"", 0⟩⟩ :=
  ⟨(AuthTokenMiddleware_hands_on (demoApp ⟨⟨true⟩, ⟨false⟩⟩) recordNext
      (demoRequest "Bearer 7") (St.init demoWorld) "7"
      ⟨some [("sub", jwt.Value.number (float64.finite false 7 0))]⟩ 7 ⟨7, "", "", ⟨"", 0⟩⟩
      (getUser (demoApp ⟨⟨true⟩, ⟨false⟩⟩) 7
        ((St.init demoWorld).call (Call.ValidateToken "7"))).2
      (by decide) (by decide) (by decide) (by decide) rfl).2.2.2,
   (AuthTokenMiddleware_hands_on (demoApp ⟨⟨true⟩, ⟨false⟩⟩) recordNext
      (demoRequest "Bearer 7") (St.init demoWorld) "7"
      ⟨some [("sub", jwt.Value.number (float64.finite false 7 0))]⟩ 7 ⟨7, "", "", ⟨"", 0⟩⟩
      (getUser (demoApp ⟨⟨true⟩, ⟨false⟩⟩) 7
        ((St.init demoWorld).call (Call.ValidateToken "7"))).2
      (by decide) (by decide) (by decide) (by decide) rfl).2.1⟩

/-- C5 (the code departs from it). A request with the header `Bearer <token>`
whose token validates with the subject `2^53 + 1`, where `getUser` returns the
identity `u` for `2^53 + 1` and another identity `v` for `2^53`: the next
handler is run once and the middleware writes nothing, but the identity looked
up is that of `2^53`, the subject as read back through the `float64`; the
request handed on carries `v`, and `getUserFromContext` on it does not return
`u`. -/
theorem AuthTokenMiddleware_authenticated_other_identity (app : application ω)
    (next : Handler ω) (r : Request) (st : St ω) (token : String) (jwtToken : jwt.Token)
    (u v : store.User) (st2 : St ω)
    (hne : r.Header.Get "Authorization" ≠ "")
    (hparts : strings.Split (r.Header.Get "Authorization") ' ' = ["Bearer", token])
    (hval : app.authenticator.ValidateToken st.world token = (some jwtToken, none))
    (hclaims : jwtToken.Claims = some (issuedClaims 9007199254740993))
    (_hu : (getUser app 9007199254740993 (st.call (Call.ValidateToken token))).1 =
      (some u, none))
    (hv : getUser app 9007199254740992 (st.call (Call.ValidateToken token)) =
      ((some v, none), st2))
    (huv : u ≠ v) :
    AuthTokenMiddleware app next r st = next (withUser r (some v)) st2 ∧
    getUserFromContext (withUser r (some v)) = some v ∧
    getUserFromContext (withUser r (some v)) ≠ some u ∧
    st2.rw = st.rw ∧
    (AuthTokenMiddleware app recordNext r st).calls.filter Call.isServeHTTP =
      st.calls.filter Call.isServeHTTP ++ [Call.ServeHTTP (withUser r (some v))] := by
  have hsub : strconv.ParseInt (fmt.Sprintf_f0 ((jwtToken.Claims.getD []).get "sub")) =
      (9007199254740992, none) := by
    rw [hclaims]
    decide
  have h := AuthTokenMiddleware_hands_on app next r st token jwtToken 9007199254740992 v st2
    hne hparts hval hsub hv
  refine ⟨h.1, h.2.1, ?_, h.2.2.1, h.2.2.2⟩
  rw [h.2.1]
  intro hEq
  exact huv (Option.some.inj hEq).symm

/-- The token `9007199254740993` of the demo authenticator, with the mock user
store and no cache: the token validates with the subject `2^53 + 1`, `getUser`
returns the mock user `2^53 + 1` for it, and the one serving of the next handler
carries the mock user `2^53`. The token of the subject `2^63 - 1` validates as
well and is rejected. -/
theorem AuthTokenMiddleware_authenticated_other_identity_witness :
    (demoApp ⟨⟨false⟩, ⟨false⟩⟩).authenticator.ValidateToken demoWorld "9007199254740993" =
      (some ⟨some (issuedClaims 9007199254740993)⟩, none) ∧
    (getUser (demoApp ⟨⟨false⟩, ⟨false⟩⟩) 9007199254740993
        ((St.init demoWorld).call (Call.ValidateToken "9007199254740993"))).1 =
      (some ⟨9007199254740993, "", "", ⟨"", 0⟩⟩, none) ∧
    (AuthTokenMiddleware (demoApp ⟨⟨false⟩, ⟨false⟩⟩) recordNext
        (demoRequest "Bearer 9007199254740993")
        (St.init demoWorld)).calls.filter Call.isServeHTTP =
      [Call.ServeHTTP (withUser (demoRequest "Bearer 9007199254740993")
        (some ⟨9007199254740992, "", "", ⟨"", 0⟩⟩))] ∧
    getUserFromContext (withUser (demoRequest "Bearer 9007199254740993")
        (some ⟨9007199254740992, "", "", ⟨"", 0⟩⟩)) ≠
      some ⟨9007199254740993, "", "", ⟨"", 0⟩⟩ ∧
    (demoApp ⟨⟨false⟩, ⟨false⟩⟩).authenticator.ValidateToken demoWorld "9223372036854775807" =
      (some ⟨some (issuedClaims 9223372036854775807)⟩, none) ∧
    rejects (demoApp ⟨⟨false⟩, ⟨false⟩⟩) (demoRequest "Bearer 9223372036854775807")
      demoWorld = true :=
  ⟨by decide, by decide,
   (AuthTokenMiddleware_authenticated_other_identity (demoApp ⟨⟨false⟩, ⟨false⟩⟩) recordNext
      (demoRequest "Bearer 9007199254740993") (St.init demoWorld) "9007199254740993"
      ⟨some (issuedClaims 9007199254740993)⟩ ⟨9007199254740993, "", "", ⟨"", 0⟩⟩
      ⟨9007199254740992, "", "", ⟨"", 0⟩⟩
      (getUser (demoApp ⟨⟨false⟩, ⟨false⟩⟩) 9007199254740992
        ((St.init demoWorld).call (Call.ValidateToken "9007199254740993"))).2
      (by decide) (by decide) (by decide) rfl (by decide) rfl (by decide)).2.2.2.2,
   (AuthTokenMiddleware_authenticated_other_identity (demoApp ⟨⟨false⟩, ⟨false⟩⟩) recordNext
      (demoRequest "Bearer 9007199254740993") (St.init demoWorld) "9007199254740993"
      ⟨some (issuedClaims 9007199254740993)⟩ ⟨9007199254740993, "", "", ⟨"", 0⟩⟩
      ⟨9007199254740992, "", "", ⟨"", 0⟩⟩
      (getUser (demoApp ⟨⟨false⟩, ⟨false⟩⟩) 9007199254740992
        ((St.init demoWorld).call (Call.ValidateToken "9007199254740993"))).2
      (by decide) (by decide) (by decide) rfl (by decide) rfl (by decide)).2.2.1,
   by decide, by decide⟩

end Authentication

section CacheAside

variable {ω : Type}

/-- The cache of the concrete world returns what was set, under the id of the
entity. -/
theorem World.cacheGet_cacheSet (w : World) (u : store.User) :
    World.cacheGet (World.cacheSet w (some u)).2 u.ID = (some u, none) := by
  simp [World.cacheGet, World.cacheSet, List.lookup]

/-- C6. With caching configured off, `getUser id` returns exactly what
`Users.GetByID id` of the persistence store returns, value and error alike; the
one call it records is that read, so that every call reads persistence (two
calls in a row record two reads) and no call on the cache (`Get`, `Set`,
`Delete`) is made; the world is left as it was. -/
theorem getUser_cache_disabled (app : application ω) (userID : Int) (st : St ω)
    (hoff : app.config.redisCfg.enabled = false) :
    (getUser app userID st).1 = app.store.Users.GetByID st.world userID ∧
    (getUser app userID st).2.calls = st.calls ++ [Call.UsersGetByID userID] ∧
    (getUser app userID st).2.world = st.world ∧
    (getUser app userID (getUser app userID st).2).1 = app.store.Users.GetByID st.world userID ∧
    (getUser app userID (getUser app userID st).2).2.calls =
      st.calls ++ [Call.UsersGetByID userID, Call.UsersGetByID userID] := by
  simp [getUser, hoff, St.call]

/-- The lookup of id 7 with the cache off: two lookups, two reads of
persistence, the cache never called. -/
theorem getUser_cache_disabled_witness :
    (demoApp ⟨⟨false⟩, ⟨false⟩⟩).config.redisCfg.enabled = false ∧
    (getUser (demoApp ⟨⟨false⟩, ⟨false⟩⟩) 7 (St.init demoWorld)).1 =
      (some ⟨7, "", "", ⟨"", 0⟩⟩, none) ∧
    (getUser (demoApp ⟨⟨false⟩, ⟨false⟩⟩) 7
        (getUser (demoApp ⟨⟨false⟩, ⟨false⟩⟩) 7 (St.init demoWorld)).2).2.calls =
      [Call.UsersGetByID 7, Call.UsersGetByID 7] :=
  ⟨rfl, (getUser_cache_disabled (demoApp ⟨⟨false⟩, ⟨false⟩⟩) 7 (St.init demoWorld) rfl).1,
    (getUser_cache_disabled (demoApp ⟨⟨false⟩, ⟨false⟩⟩) 7 (St.init demoWorld) rfl).2.2.2.2⟩

/-- C7. With caching enabled, the cache entry of `id` absent, persistence
returning the identity `u`, and the cache storing `u` without error so that a
`Get` of `id` then returns it: the first `getUser id` looks in the cache, reads
persistence once, sets `u` in the cache and returns `u`; the `getUser id` that
follows returns the same `u` after the cache lookup alone, without reading
persistence and without changing the world, the cache state included. -/
theorem getUser_read_through (app : application ω) (userID : Int) (st : St ω)
    (u : store.User) (w1 : ω)
    (hon : app.config.redisCfg.enabled = true)
    (hmiss : app.cacheStorage.Users.Get st.world userID = (none, none))
    (hdb : app.store.Users.GetByID st.world userID = (some u, none))
    (hset : app.cacheStorage.Users.Set st.world (some u) = (none, w1))
    (hhit : app.cacheStorage.Users.Get w1 userID = (some u, none)) :
    (getUser app userID st).1 = (some u, none) ∧
    (getUser app userID st).2.calls =
      st.calls ++ [Call.CacheGet userID, Call.UsersGetByID userID, Call.CacheSet (some u)] ∧
    (getUser app userID st).2.world = w1 ∧
    (getUser app userID (getUser app userID st).2).1 = (some u, none) ∧
    (getUser app userID (getUser app userID st).2).2.calls =
      (getUser app userID st).2.calls ++ [Call.CacheGet userID] ∧
    (getUser app userID (getUser app userID st).2).2.world = (getUser app userID st).2.world := by
  have h1 : getUser app userID st = ((some u, none),
      { st with calls := st.calls ++ [Call.CacheGet userID, Call.UsersGetByID userID,
                  Call.CacheSet (some u)],
                world := w1 }) := by
    simp [getUser, hon, hmiss, hdb, hset, St.call]
  rw [h1]
  simp [getUser, hon, hhit, St.call]

/-- The first lookup of id 7 in the world with the empty cache, then the second. -/
theorem getUser_read_through_witness :
    (getUser (demoApp ⟨⟨true⟩, ⟨false⟩⟩) 7 (St.init demoWorld)).2.calls =
      [Call.CacheGet 7, Call.UsersGetByID 7, Call.CacheSet (some ⟨7, "", "", ⟨"", 0⟩⟩)] ∧
    (getUser (demoApp ⟨⟨true⟩, ⟨false⟩⟩) 7
        (getUser (demoApp ⟨⟨true⟩, ⟨false⟩⟩) 7 (St.init demoWorld)).2).1 =
      (some ⟨7, "", "", ⟨"", 0⟩⟩, none) ∧
    (getUser (demoApp ⟨⟨true⟩, ⟨false⟩⟩) 7
        (getUser (demoApp ⟨⟨true⟩, ⟨false⟩⟩) 7 (St.init demoWorld)).2).2.calls =
      [Call.CacheGet 7, Call.UsersGetByID 7, Call.CacheSet (some ⟨7, "", "", ⟨"", 0⟩⟩),
       Call.CacheGet 7] :=
  ⟨(getUser_read_through (demoApp ⟨⟨true⟩, ⟨false⟩⟩) 7 (St.init demoWorld)
      ⟨7, "", "", ⟨"", 0⟩⟩ (World.cacheSet demoWorld (some ⟨7, "", "", ⟨"", 0⟩⟩)).2
      rfl (by decide) (by decide) rfl (by decide)).2.1,
   (getUser_read_through (demoApp ⟨⟨true⟩, ⟨false⟩⟩) 7 (St.init demoWorld)
      ⟨7, "", "", ⟨"", 0⟩⟩ (World.cacheSet demoWorld (some ⟨7, "", "", ⟨"", 0⟩⟩)).2
      rfl (by decide) (by decide) rfl (by decide)).2.2.2.1,
   by decide⟩

end CacheAside

section Authorization

variable {ω : Type}

/-- C8. When the post in the request scope belongs to the user in the request
scope, `checkPostOwnership` is the next handler run once on the same request
and state, whatever the role of the user and whatever the required role name:
nothing is written and the role store is not consulted, the recorded calls
being the earlier ones followed by the one serving. -/
theorem checkPostOwnership_owner (app : application ω) (requiredRole : String)
    (next : Handler ω) (r : Request) (st : St ω) (user : store.User) (post : store.Post)
    (hu : getUserFromContext r = some user) (hp : getPostFromCtx r = some post)
    (hown : post.UserID = user.ID) :
    checkPostOwnership app requiredRole next r st = next r st ∧
    (checkPostOwnership app requiredRole recordNext r st).calls =
      st.calls ++ [Call.ServeHTTP r] ∧
    (checkPostOwnership app requiredRole recordNext r st).rw = st.rw := by
  simp [checkPostOwnership, hu, hp, hown, recordNext, St.call]

/-- The owner of a post, of the lowest role, asking for a role that no role
store knows. -/
theorem checkPostOwnership_owner_witness :
    (checkPostOwnership (demoApp ⟨⟨true⟩, ⟨true⟩⟩) "no-such-role" recordNext
        (scopedRequest (demoUser 5 ⟨"user", 1⟩) (demoPost 9 5)) (St.init demoWorld)).calls =
      [Call.ServeHTTP (scopedRequest (demoUser 5 ⟨"user", 1⟩) (demoPost 9 5))] :=
  (checkPostOwnership_owner (demoApp ⟨⟨true⟩, ⟨true⟩⟩) "no-such-role" recordNext
    (scopedRequest (demoUser 5 ⟨"user", 1⟩) (demoPost 9 5)) (St.init demoWorld)
    (demoUser 5 ⟨"user", 1⟩) (demoPost 9 5) (by decide) (by decide) (by decide)).2.1

/-- C9. When the post in the request scope does not belong to the user in the
request scope, `checkPostOwnership` consults the role store once and ends in
one of three ways. If `Roles.GetByName` fails: the 500 response, the next
handler not served. If it returns a role whose level the user reaches: the next
handler run once on the same request, nothing written. If it returns a role
above the level of the user: the 403 "forbidden" response, the next handler
not served. -/
theorem checkPostOwnership_non_owner (app : application ω) (requiredRole : String)
    (next : Handler ω) (r : Request) (st : St ω) (user : store.User) (post : store.Post)
    (hu : getUserFromContext r = some user) (hp : getPostFromCtx r = some post)
    (hne : post.UserID ≠ user.ID) :
    (∀ ro err, app.store.Roles.GetByName st.world requiredRole = (ro, some err) →
      checkPostOwnership app requiredRole next r st =
        internalServerError r err (st.call (Call.RolesGetByName requiredRole)) ∧
      (checkPostOwnership app requiredRole recordNext r st).rw = st.rw ++ internalErrorResponse ∧
      (checkPostOwnership app requiredRole recordNext r st).calls =
        st.calls ++ [Call.RolesGetByName requiredRole]) ∧
    (∀ role, app.store.Roles.GetByName st.world requiredRole = (some role, none) →
      user.Role.Level ≥ role.Level →
      checkPostOwnership app requiredRole next r st =
        next r (st.call (Call.RolesGetByName requiredRole)) ∧
      (checkPostOwnership app requiredRole recordNext r st).rw = st.rw ∧
      (checkPostOwnership app requiredRole recordNext r st).calls =
        st.calls ++ [Call.RolesGetByName requiredRole, Call.ServeHTTP r]) ∧
    (∀ role, app.store.Roles.GetByName st.world requiredRole = (some role, none) →
      user.Role.Level < role.Level →
      checkPostOwnership app requiredRole next r st =
        forbiddendResponse r (st.call (Call.RolesGetByName requiredRole)) ∧
      (checkPostOwnership app requiredRole recordNext r st).rw = st.rw ++ forbiddenResponse ∧
      (checkPostOwnership app requiredRole recordNext r st).calls =
        st.calls ++ [Call.RolesGetByName requiredRole]) := by
  refine ⟨?_, ?_, ?_⟩
  · intro ro err h
    have h1 : app.store.Roles.GetByName (st.call (Call.RolesGetByName requiredRole)).world
        requiredRole = (ro, some err) := h
    simp [checkPostOwnership, hu, hp, hne, checkRolePrecedence, h1, h, internalServerError,
      writeJSONError, writeJSON, St.log, St.call, internalErrorResponse]
  · intro role h hge
    have h1 : app.store.Roles.GetByName (st.call (Call.RolesGetByName requiredRole)).world
        requiredRole = (some role, none) := h
    simp [checkPostOwnership, hu, hp, hne, checkRolePrecedence, h1, h, hge, recordNext, St.call]
  · intro role h hlt
    have h1 : app.store.Roles.GetByName (st.call (Call.RolesGetByName requiredRole)).world
        requiredRole = (some role, none) := h
    have hnot : ¬ role.Level ≤ user.Role.Level := not_le.mpr hlt
    simp [checkPostOwnership, hu, hp, hne, checkRolePrecedence, h1, h, hnot, forbiddendResponse,
      writeJSONError, writeJSON, St.log, St.call, forbiddenResponse]

/-- A plain user on the post of someone else: forbidden for `moderator`; a
moderator is let through; an unknown role name gives the 500 response. -/
theorem checkPostOwnership_non_owner_witness :
    (checkPostOwnership (demoApp ⟨⟨true⟩, ⟨true⟩⟩) "moderator" recordNext
        (scopedRequest (demoUser 5 ⟨"user", 1⟩) (demoPost 9 6)) (St.init demoWorld)).rw =
      forbiddenResponse ∧
    (checkPostOwnership (demoApp ⟨⟨true⟩, ⟨true⟩⟩) "moderator" recordNext
        (scopedRequest (demoUser 5 ⟨"moderator", 2⟩) (demoPost 9 6)) (St.init demoWorld)).calls =
      [Call.RolesGetByName "moderator",
       Call.ServeHTTP (scopedRequest (demoUser 5 ⟨"moderator", 2⟩) (demoPost 9 6))] ∧
    (checkPostOwnership (demoApp ⟨⟨true⟩, ⟨true⟩⟩) "no-such-role" recordNext
        (scopedRequest (demoUser 5 ⟨"user", 1⟩) (demoPost 9 6)) (St.init demoWorld)).rw =
      internalErrorResponse :=
  ⟨((checkPostOwnership_non_owner (demoApp ⟨⟨true⟩, ⟨true⟩⟩) "moderator" recordNext
      (scopedRequest (demoUser 5 ⟨"user", 1⟩) (demoPost 9 6)) (St.init demoWorld)
      (demoUser 5 ⟨"user", 1⟩) (demoPost 9 6) (by decide) (by decide) (by decide)).2.2
      ⟨"moderator", 2⟩ (by decide) (by decide)).2.1,
   ((checkPostOwnership_non_owner (demoApp ⟨⟨true⟩, ⟨true⟩⟩) "moderator" recordNext
      (scopedRequest (demoUser 5 ⟨"moderator", 2⟩) (demoPost 9 6)) (St.init demoWorld)
      (demoUser 5 ⟨"moderator", 2⟩) (demoPost 9 6) (by decide) (by decide) (by decide)).2.1
      ⟨"moderator", 2⟩ (by decide) (by decide)).2.2,
   ((checkPostOwnership_non_owner (demoApp ⟨⟨true⟩, ⟨true⟩⟩) "no-such-role" recordNext
      (scopedRequest (demoUser 5 ⟨"user", 1⟩) (demoPost 9 6)) (St.init demoWorld)
      (demoUser 5 ⟨"user", 1⟩) (demoPost 9 6) (by decide) (by decide) (by decide)).1
      none store.ErrNotFound (by decide)).2.1⟩

/-- C10. The method `checkRolePrecedence` consults the role store once. When
`Roles.GetByName` fails it returns `false` with that very error; when it
returns a role it returns, without error, whether the level of the user is at
least the level of the role. Equal levels are allowed, and a user of a higher
level is allowed wherever a user of a lower level is. -/
theorem checkRolePrecedence_spec (app : application ω) (user : store.User)
    (roleName : String) (st : St ω) :
    (checkRolePrecedence app (some user) roleName st).2.calls =
      st.calls ++ [Call.RolesGetByName roleName] ∧
    (∀ ro err, app.store.Roles.GetByName st.world roleName = (ro, some err) →
      (checkRolePrecedence app (some user) roleName st).1 = some (false, some err)) ∧
    (∀ role, app.store.Roles.GetByName st.world roleName = (some role, none) →
      (checkRolePrecedence app (some user) roleName st).1 =
        some (decide (user.Role.Level ≥ role.Level), none) ∧
      (user.Role.Level = role.Level →
        (checkRolePrecedence app (some user) roleName st).1 = some (true, none)) ∧
      (∀ user2 : store.User, user.Role.Level ≤ user2.Role.Level →
        (checkRolePrecedence app (some user) roleName st).1 = some (true, none) →
        (checkRolePrecedence app (some user2) roleName st).1 = some (true, none))) := by
  refine ⟨?_, ?_, ?_⟩
  · unfold checkRolePrecedence
    dsimp only
    split
    · rfl
    · split <;> rfl
  · intro ro err h
    have h1 : app.store.Roles.GetByName (st.call (Call.RolesGetByName roleName)).world roleName =
        (ro, some err) := h
    simp [checkRolePrecedence, h1]
  · intro role h
    have h1 : app.store.Roles.GetByName (st.call (Call.RolesGetByName roleName)).world roleName =
        (some role, none) := h
    refine ⟨by simp [checkRolePrecedence, h1], ?_, ?_⟩
    · intro heq
      simp [checkRolePrecedence, h1, heq]
    · intro user2 hle hallowed
      simp only [checkRolePrecedence, h1, Option.some.injEq, Prod.mk.injEq, decide_eq_true_eq,
        and_true] at hallowed ⊢
      exact le_trans hallowed hle

/-- In the demo world: an unknown role name gives `false` with `ErrNotFound`;
a moderator has precedence for `moderator`, a plain user has not. -/
theorem checkRolePrecedence_spec_witness :
    (checkRolePrecedence (demoApp ⟨⟨true⟩, ⟨true⟩⟩) (some (demoUser 5 ⟨"user", 1⟩))
        "no-such-role" (St.init demoWorld)).1 = some (false, some store.ErrNotFound) ∧
    (checkRolePrecedence (demoApp ⟨⟨true⟩, ⟨true⟩⟩) (some (demoUser 5 ⟨"moderator", 2⟩))
        "moderator" (St.init demoWorld)).1 = some (true, none) ∧
    (checkRolePrecedence (demoApp ⟨⟨true⟩, ⟨true⟩⟩) (some (demoUser 5 ⟨"user", 1⟩))
        "moderator" (St.init demoWorld)).1 = some (false, none) :=
  ⟨(checkRolePrecedence_spec (demoApp ⟨⟨true⟩, ⟨true⟩⟩) (demoUser 5 ⟨"user", 1⟩)
      "no-such-role" (St.init demoWorld)).2.1 none store.ErrNotFound (by decide),
   ((checkRolePrecedence_spec (demoApp ⟨⟨true⟩, ⟨true⟩⟩) (demoUser 5 ⟨"moderator", 2⟩)
      "moderator" (St.init demoWorld)).2.2 ⟨"moderator", 2⟩ (by decide)).2.1 (by decide),
   by decide⟩

end Authorization

section SubjectRoundTrip

/-- A decimal digit character is a digit, and its value is read back. -/
theorem digitChar_spec : ∀ d, d < 10 →
    (Nat.digitChar d).isDigit = true ∧ (Nat.digitChar d).toNat - 48 = d := by
  decide

/-- Parsing the digits that `Nat.toDigitsCore` puts in front of `ds` is parsing
`ds` from the value printed. -/
theorem parseUintLoop_toDigitsCore (f : Nat) : ∀ (n : Nat) (ds : List Char),
    n < f → n ≤ strconv.maxUint64 →
    strconv.parseUintLoop (Nat.toDigitsCore 10 f n ds) 0 = strconv.parseUintLoop ds n := by
  induction f with
  | zero => intro n ds h; omega
  | succ f ih =>
    intro n ds hf hmax
    have hd := digitChar_spec (n % 10) (Nat.mod_lt _ (by norm_num))
    have hmax1 : n ≤ 18446744073709551615 := by simpa [strconv.maxUint64] using hmax
    unfold Nat.toDigitsCore
    dsimp only
    split
    · next h0 =>
      have hn : n % 10 = n := by omega
      simp only [strconv.parseUintLoop, hd.1, if_true, hd.2, strconv.maxUint64]
      norm_num
      rw [if_neg (by omega), hn]
    · next h0 =>
      rw [ih (n / 10) _ (by omega) (by omega)]
      simp only [strconv.parseUintLoop, hd.1, if_true, hd.2, strconv.maxUint64]
      norm_num
      have hn : n / 10 * 10 + n % 10 = n := by omega
      rw [if_neg (by omega), hn, if_neg (by omega)]

/-- The text printed for a number starts with a digit. -/
theorem toDigitsCore_head (f : Nat) : ∀ (n : Nat) (ds : List Char),
    ∃ d tl, d < 10 ∧ Nat.toDigitsCore 10 (f + 1) n ds = Nat.digitChar d :: tl := by
  induction f with
  | zero =>
    intro n ds
    refine ⟨n % 10, ds, Nat.mod_lt _ (by norm_num), ?_⟩
    simp [Nat.toDigitsCore]
  | succ f ih =>
    intro n ds
    unfold Nat.toDigitsCore
    dsimp only
    split
    · exact ⟨n % 10, ds, Nat.mod_lt _ (by norm_num), rfl⟩
    · exact ih (n / 10) _

/-- A digit character is neither sign. -/
theorem digitChar_not_sign : ∀ d, d < 10 →
    (Nat.digitChar d == '+') = false ∧ (Nat.digitChar d == '-') = false := by
  decide

/-- Printing a natural number below `2^64` and parsing it as unsigned gives it back. -/
theorem ParseUint_toDigits (n : Nat) (h : n ≤ strconv.maxUint64) :
    strconv.ParseUint (Nat.toDigits 10 n) = (n, none) := by
  obtain ⟨d, tl, _, hhead⟩ := toDigitsCore_head n n []
  have hloop := parseUintLoop_toDigitsCore (n + 1) n [] (by omega) h
  unfold Nat.toDigits at *
  unfold strconv.ParseUint
  rw [hhead] at hloop ⊢
  simpa [strconv.parseUintLoop] using hloop

/-- Printing a natural number below `2^63` and parsing it as `int64` gives it back. -/
theorem ParseInt_repr (n : Nat) (h : n < 2 ^ 63) :
    strconv.ParseInt (Nat.repr n) = ((n : Int), none) := by
  obtain ⟨d, tl, hd, hhead⟩ := toDigitsCore_head n n []
  have hu := ParseUint_toDigits n (by simp only [strconv.maxUint64]; omega)
  have hdata : (Nat.repr n).data = Nat.digitChar d :: tl := hhead
  have hu1 : strconv.ParseUint (Nat.digitChar d :: tl) = (n, none) := by
    rw [← hhead]; exact hu
  have hs := digitChar_not_sign d hd
  unfold strconv.ParseInt
  rw [hdata]
  simp only [hs.1, hs.2, Bool.false_eq_true, or_self, if_false, hu1]
  have hlt : n < 9223372036854775808 := by norm_num at h; exact h
  simp [hlt]

/-- Printing the negative of a natural number up to `2^63` and parsing it gives it back. -/
theorem ParseInt_neg_repr (n : Nat) (h : n ≤ 2 ^ 63) :
    strconv.ParseInt ("-" ++ Nat.repr n) = (-(n : Int), none) := by
  have hu := ParseUint_toDigits n (by simp only [strconv.maxUint64]; omega)
  have hdata : ("-" ++ Nat.repr n).data = '-' :: Nat.toDigits 10 n := by
    simp [String.data_append]
    rfl
  unfold strconv.ParseInt
  rw [hdata]
  have hle : n ≤ 9223372036854775808 := by norm_num at h; exact h
  simp [hu, hle]

/-- A number below `2^k` has at most `k` binary digits. -/
theorem bitLenAux_le (f : Nat) : ∀ (n k : Nat), n < 2 ^ k → float64.bitLenAux f n ≤ k := by
  induction f with
  | zero => intro n k _; simp [float64.bitLenAux]
  | succ f ih =>
    intro n k h
    unfold float64.bitLenAux
    split
    · omega
    · next hn =>
      cases k with
      | zero => simp at h; omega
      | succ k =>
        have : n / 2 < 2 ^ k := by
          rw [pow_succ] at h
          omega
        have := ih (n / 2) k this
        omega

/-- An integer of magnitude below `2^53` is a `float64` exactly. -/
theorem ofInt_exact (S : Int) (h : S.natAbs < 2 ^ 53) :
    float64.ofInt S = float64.finite (decide (S < 0)) S.natAbs 0 := by
  unfold float64.ofInt float64.ofNat
  dsimp only
  split
  · next h0 => rw [h0]
  · have := bitLenAux_le S.natAbs S.natAbs 53 h
    unfold float64.bitLen
    rw [if_pos this]

/-- The range on which the subject survives: for every id `S` of magnitude
below `2^53`, the claims read back from a token issued with `sub = S` give the
middleware the id `S`, without error. -/
theorem subject_round_trip_below_2_53 (S : Int) (h : S.natAbs < 2 ^ 53) :
    strconv.ParseInt (fmt.Sprintf_f0 ((issuedClaims S).get "sub")) = (S, none) := by
  have hget : (issuedClaims S).get "sub" = jwt.Value.number (float64.ofInt S) := by
    simp [issuedClaims, jwt.MapClaims.get, List.lookup]
  rw [hget, ofInt_exact S h]
  have hmag : float64.roundedMagnitude S.natAbs 0 = S.natAbs := by
    show S.natAbs * 2 ^ 0 = S.natAbs
    simp
  simp only [fmt.Sprintf_f0, hmag]
  by_cases hneg : S < 0
  · simp only [hneg, decide_True, if_true]
    rw [ParseInt_neg_repr _ (by omega)]
    congr 1
    omega
  · simp only [hneg, decide_False, Bool.false_eq_true, if_false]
    have : ("" : String) ++ Nat.repr S.natAbs = Nat.repr S.natAbs := by
      apply String.ext; simp [String.data_append]
    rw [this, ParseInt_repr _ (by omega)]
    congr 1
    omega

/-- Below `2^53` the subject is read back as issued, and the request handed on
carries the identity of the subject: for a token that validates with the
subject `S`, `|S| < 2^53`, and `getUser S` returning `u` without error, the
next handler is run once on the request carrying `u` and the middleware writes
nothing. -/
theorem AuthTokenMiddleware_hands_on_below_2_53 {ω : Type} (app : application ω)
    (next : Handler ω) (r : Request) (st : St ω) (token : String) (jwtToken : jwt.Token)
    (S : Int) (u : store.User) (st2 : St ω)
    (hne : r.Header.Get "Authorization" ≠ "")
    (hparts : strings.Split (r.Header.Get "Authorization") ' ' = ["Bearer", token])
    (hval : app.authenticator.ValidateToken st.world token = (some jwtToken, none))
    (hclaims : jwtToken.Claims = some (issuedClaims S))
    (hS : S.natAbs < 2 ^ 53)
    (huser : getUser app S (st.call (Call.ValidateToken token)) = ((some u, none), st2)) :
    AuthTokenMiddleware app next r st = next (withUser r (some u)) st2 ∧
    getUserFromContext (withUser r (some u)) = some u ∧
    st2.rw = st.rw ∧
    (AuthTokenMiddleware app recordNext r st).calls.filter Call.isServeHTTP =
      st.calls.filter Call.isServeHTTP ++ [Call.ServeHTTP (withUser r (some u))] := by
  have hsub : strconv.ParseInt (fmt.Sprintf_f0 ((jwtToken.Claims.getD []).get "sub")) =
      (S, none) := by
    rw [hclaims]
    exact subject_round_trip_below_2_53 S hS
  exact AuthTokenMiddleware_hands_on app next r st token jwtToken S u st2
    hne hparts hval hsub huser

/-- Parsing the digits printed for a number above the largest `uint64` fails
with the range error. -/
theorem parseUintLoop_toDigitsCore_big (f : Nat) : ∀ (n : Nat) (ds : List Char),
    n < f → strconv.maxUint64 < n →
    strconv.parseUintLoop (Nat.toDigitsCore 10 f n ds) 0 =
      (strconv.maxUint64, some strconv.ErrRange) := by
  induction f with
  | zero => intro n ds h; omega
  | succ f ih =>
    intro n ds hf hbig
    have hd := digitChar_spec (n % 10) (Nat.mod_lt _ (by norm_num))
    have hbig1 : 18446744073709551615 < n := by simpa [strconv.maxUint64] using hbig
    unfold Nat.toDigitsCore
    dsimp only
    split
    · next h0 => omega
    · next h0 =>
      by_cases hq : strconv.maxUint64 < n / 10
      · exact ih (n / 10) _ (by omega) hq
      · have hq1 : n / 10 ≤ 18446744073709551615 := by
          simpa [strconv.maxUint64] using hq
        rw [parseUintLoop_toDigitsCore f (n / 10) _ (by omega) (by omega)]
        simp only [strconv.parseUintLoop, hd.1, if_true, hd.2, strconv.maxUint64]
        norm_num
        intro _
        have hn : n / 10 * 10 + n % 10 = n := by omega
        rw [hn]
        omega

/-- Parsing as `int64` the text printed for a natural number of `2^63` or more
fails. -/
theorem ParseInt_repr_big (n : Nat) (h : 2 ^ 63 ≤ n) :
    (strconv.ParseInt (Nat.repr n)).2 ≠ none := by
  obtain ⟨d, tl, hd, hhead⟩ := toDigitsCore_head n n []
  have hdata : (Nat.repr n).data = Nat.digitChar d :: tl := hhead
  have hs := digitChar_not_sign d hd
  have h1 : 9223372036854775808 ≤ n := by norm_num at h; exact h
  unfold strconv.ParseInt
  rw [hdata]
  simp only [hs.1, hs.2, Bool.false_eq_true, or_self, if_false]
  by_cases hmax : n ≤ strconv.maxUint64
  · have hu : strconv.ParseUint (Nat.digitChar d :: tl) = (n, none) := by
      rw [← hhead]; exact ParseUint_toDigits n hmax
    rw [hu]
    simp [h1]
  · have hu : strconv.ParseUint (Nat.digitChar d :: tl) =
        (strconv.maxUint64, some strconv.ErrRange) := by
      have := parseUintLoop_toDigitsCore_big (n + 1) n [] (by omega) (by omega)
      rw [hhead] at this
      simpa [strconv.ParseUint] using this
    rw [hu]
    simp [strconv.ErrRange, strconv.maxUint64]

/-- Parsing as `int64` the text printed for the negative of a natural number
above `2^63` fails. -/
theorem ParseInt_neg_repr_big (n : Nat) (h : 2 ^ 63 < n) :
    (strconv.ParseInt ("-" ++ Nat.repr n)).2 ≠ none := by
  have hdata : ("-" ++ Nat.repr n).data = '-' :: Nat.toDigits 10 n := by
    simp [String.data_append]
    rfl
  have h1 : 9223372036854775808 < n := by norm_num at h; exact h
  unfold strconv.ParseInt
  rw [hdata]
  by_cases hmax : n ≤ strconv.maxUint64
  · simp [ParseUint_toDigits n hmax, h1]
  · obtain ⟨d, tl, hd, hhead⟩ := toDigitsCore_head n n []
    have hu : strconv.ParseUint (Nat.toDigits 10 n) =
        (strconv.maxUint64, some strconv.ErrRange) := by
      have := parseUintLoop_toDigitsCore_big (n + 1) n [] (by omega) (by omega)
      unfold Nat.toDigits
      rw [hhead] at this ⊢
      simpa [strconv.ParseUint] using this
    simp [hu, strconv.ErrRange, strconv.maxUint64]

/-- A text that starts with `%` is refused by `ParseInt`. -/
theorem ParseInt_percent (s : String) (rest : List Char) (h : s.data = '%' :: rest) :
    (strconv.ParseInt s).2 ≠ none := by
  unfold strconv.ParseInt
  rw [h]
  have h1 : ('%' == '+') = false := by decide
  have h2 : ('%' == '-') = false := by decide
  have h3 : Char.isDigit '%' = false := by decide
  simp [h1, h2, strconv.ParseUint, strconv.parseUintLoop, h3, strconv.ErrSyntax]

/-- Rounding a significand of at most 53 bits down by at least one bit stays
far below `2^53 + 1`. -/
theorem roundShift_small (mant k : Nat) (hm : mant < 2 ^ 53) :
    float64.roundShift mant (k + 1) ≤ 2 ^ 52 := by
  have hq : mant / 2 ^ (k + 1) ≤ mant / 2 := by
    apply Nat.div_le_div_left _ (by norm_num)
    calc 2 = 2 ^ 1 := by norm_num
      _ ≤ 2 ^ (k + 1) := Nat.pow_le_pow_right (by norm_num) (by omega)
  have hm1 : mant < 9007199254740992 := by norm_num at hm; exact hm
  have hlt : mant / 2 ^ (k + 1) < 2 ^ 52 := by
    have : mant / 2 < 2 ^ 52 := by norm_num; omega
    omega
  by_cases hk : k = 0
  · subst hk
    unfold float64.roundShift
    norm_num
    split
    · omega
    · split
      · split <;> omega
      · omega
  · -- at least two bits are dropped: the quotient is below `2^51`
    have hq2 : mant / 2 ^ (k + 1) ≤ mant / 4 := by
      apply Nat.div_le_div_left _ (by norm_num)
      calc 4 = 2 ^ 2 := by norm_num
        _ ≤ 2 ^ (k + 1) := Nat.pow_le_pow_right (by norm_num) (by omega)
    have : mant / 4 < 2 ^ 51 := by norm_num; omega
    have h52 : (2 : Nat) ^ 52 = 2 * 2 ^ 51 := by norm_num
    unfold float64.roundShift
    dsimp only
    split
    · omega
    · split
      · split <;> omega
      · omega

/-- Whatever value the claims map holds under `sub`, the middleware does not
read the id `2^53 + 1` from it: no `float64` prints as that number, and a value
of another type does not print as a number at all. -/
theorem no_claim_reads_as_2_53_plus_1 (v : jwt.Value) (hv : v.valid = true) :
    strconv.ParseInt (fmt.Sprintf_f0 v) ≠ (9007199254740993, none) := by
  intro hcontra
  have hnone : (strconv.ParseInt (fmt.Sprintf_f0 v)).2 = none := by rw [hcontra]
  have hval : (strconv.ParseInt (fmt.Sprintf_f0 v)).1 = 9007199254740993 := by rw [hcontra]
  cases v with
  | null => exact absurd hcontra (by decide)
  | bool b => cases b <;> exact absurd hcontra (by decide)
  | string s =>
    exact ParseInt_percent _ ("!f(string=".data ++ s.data ++ ")".data)
      (by simp [fmt.Sprintf_f0, String.data_append]) hnone
  | composite ty r =>
    exact ParseInt_percent _ ("!f(".data ++ ty.data ++ "=".data ++ r.data ++ ")".data)
      (by simp [fmt.Sprintf_f0, String.data_append]) hnone
  | int64 i =>
    exact ParseInt_percent _
      ("!f(int64=".data ++ (if i < 0 then "-" else "").data ++ (Nat.repr i.natAbs).data ++ ")".data)
      (by simp [fmt.Sprintf_f0, String.data_append]) hnone
  | number f =>
    cases f with
    | nan => exact absurd hcontra (by decide)
    | inf neg => cases neg <;> exact absurd hcontra (by decide)
    | finite neg mant exp =>
      simp only [jwt.Value.valid, float64.valid, Bool.and_eq_true, decide_eq_true_eq] at hv
      obtain ⟨⟨hm, _⟩, _⟩ := hv
      have hm1 : mant < 9007199254740992 := by norm_num at hm; exact hm
      have hmag : float64.roundedMagnitude mant exp ≠ 9007199254740993 := by
        cases exp with
        | ofNat e =>
          show mant * 2 ^ e ≠ 9007199254740993
          cases e with
          | zero => simp; omega
          | succ e =>
            rw [pow_succ, ← mul_assoc]
            omega
        | negSucc e =>
          show float64.roundShift mant (e + 1) ≠ 9007199254740993
          have := roundShift_small mant e hm
          norm_num at this
          omega
      cases neg with
      | true =>
        simp only [fmt.Sprintf_f0, if_true] at hnone hval
        by_cases hbig : 2 ^ 63 < float64.roundedMagnitude mant exp
        · exact ParseInt_neg_repr_big _ hbig hnone
        · rw [ParseInt_neg_repr _ (by omega)] at hval
          simp only at hval
          omega
      | false =>
        have hempty : ("" : String) ++ Nat.repr (float64.roundedMagnitude mant exp) =
            Nat.repr (float64.roundedMagnitude mant exp) := by
          apply String.ext; simp [String.data_append]
        simp only [fmt.Sprintf_f0, Bool.false_eq_true, if_false, hempty] at hnone hval
        by_cases hbig : 2 ^ 63 ≤ float64.roundedMagnitude mant exp
        · exact ParseInt_repr_big _ hbig hnone
        · rw [ParseInt_repr _ (by omega)] at hval
          simp only at hval
          omega

end SubjectRoundTrip

section HeaderShape

/-- No piece of a split holds the separator. -/
theorem splitOnP_pieces_free {α : Type} (p : α → Bool) (xs : List α) :
    ∀ l ∈ xs.splitOnP p, ∀ y ∈ l, p y = false := by
  induction xs with
  | nil => simp
  | cons x xs ih =>
    rw [List.splitOnP_cons]
    by_cases hx : p x = true
    · rw [if_pos hx]
      intro l hl
      rcases List.mem_cons.mp hl with h | h
      · subst h; simp
      · exact ih l h
    · rw [if_neg hx]
      cases hsp : List.splitOnP p xs with
      | nil => exact absurd hsp (List.splitOnP_ne_nil p xs)
      | cons hd tl =>
        rw [hsp] at ih
        intro l hl
        simp only [List.modifyHead_cons, List.mem_cons] at hl
        rcases hl with h | h
        · subst h
          intro y hy
          rcases List.mem_cons.mp hy with h1 | h1
          · subst h1; simpa using hx
          · exact ih hd (List.mem_cons_self _ _) y h1
        · exact ih l (List.mem_cons_of_mem _ h)

/-- The header `Bearer <token>` with a token free of spaces splits into the
scheme and the token. -/
theorem Split_bearer (tok : String) (hfree : ' ' ∉ tok.data) :
    strings.Split ("Bearer " ++ tok) ' ' = ["Bearer", tok] := by
  have hdata : ("Bearer " ++ tok).data = [' '].intercalate ["Bearer".data, tok.data] := by
    simp [String.data_append, List.intercalate]
  unfold strings.Split
  rw [hdata, List.splitOn_intercalate]
  · rfl
  · intro l hl
    simp only [List.mem_cons, List.mem_singleton, List.not_mem_nil, or_false] at hl
    rcases hl with h | h
    · subst h; decide
    · subst h; exact hfree
  · simp

/-- What the header check of `AuthTokenMiddleware` accepts: exactly the headers
`Bearer <token>` with a token free of spaces (the empty token included). -/
theorem bearer_header_shape (h : String) :
    ((strings.Split h ' ').length = 2 ∧ (strings.Split h ' ').getD 0 "" = "Bearer") ↔
      ∃ tok : String, ' ' ∉ tok.data ∧ h = "Bearer " ++ tok := by
  constructor
  · rintro ⟨hlen, hfirst⟩
    unfold strings.Split at hlen hfirst
    have hfree := splitOnP_pieces_free (fun c => c == ' ') h.data
    have hinter := List.intercalate_splitOn h.data ' '
    unfold List.splitOn at hlen hfirst hinter
    generalize List.splitOnP (fun c => c == ' ') h.data = parts at hlen hfirst hfree hinter
    match parts, hlen with
    | [a, b], _ =>
      simp only [List.map_cons, List.map_nil, List.getD_cons_zero] at hfirst
      have ha : a = "Bearer".data := by rw [← hfirst]
      refine ⟨String.mk b, ?_, ?_⟩
      · intro hmem
        have := hfree b (by simp) ' ' hmem
        simp at this
      · apply String.ext
        rw [← hinter, String.data_append, ha]
        simp [List.intercalate]
  · rintro ⟨tok, hfree, rfl⟩
    rw [Split_bearer tok hfree]
    simp

end HeaderShape

section ResourceStage

variable {ω : Type}

/-- C11 (the code departs from it). When the route identifier of the post does
not parse as an `int64`, `postContextMiddleware` answers through
`internalServerError`: the status written is 500 with the generic message, not
400. Persistence is not read and the next handler is not served, as claimed:
no call is recorded and the outcome is the same for every next handler. -/
theorem postContextMiddleware_malformed_id (app : application ω) (next : Handler ω)
    (r : Request) (st : St ω) (v : Int) (err : error)
    (hbad : strconv.ParseInt (chi.URLParam r "postID") = (v, some err)) :
    postContextMiddleware app next r st = internalServerError r err st ∧
    (postContextMiddleware app next r st).rw = st.rw ++ internalErrorResponse ∧
    (postContextMiddleware app next r st).rw ≠ st.rw ++ badRequestResponseFor err ∧
    (postContextMiddleware app recordNext r st).calls = st.calls := by
  have h : ∀ nx : Handler ω, postContextMiddleware app nx r st = internalServerError r err st := by
    intro nx
    simp [postContextMiddleware, hbad]
  refine ⟨h next, ?_, ?_, ?_⟩
  · rw [h next]; rfl
  · rw [h next]
    simp [internalServerError, writeJSONError, writeJSON, St.log, badRequestResponseFor]
  · rw [h recordNext]; rfl

/-- The route identifier `abc`: the response is the 500. -/
theorem postContextMiddleware_malformed_id_witness :
    strconv.ParseInt (chi.URLParam (postRequest "abc" []) "postID") =
      (0, some (error.NumError "ParseInt" "abc" strconv.ErrSyntax)) ∧
    (postContextMiddleware (demoApp ⟨⟨true⟩, ⟨true⟩⟩) recordNext (postRequest "abc" [])
        (St.init postsWorld)).rw =
      [rwCall.HeaderSet "Content-Type" "application/json", rwCall.WriteHeader 500,
       rwCall.Encode (Body.errorEnvelope "the server encountered a problem")] :=
  ⟨by decide,
    (postContextMiddleware_malformed_id (demoApp ⟨⟨true⟩, ⟨true⟩⟩) recordNext
      (postRequest "abc" []) (St.init postsWorld) 0
      (error.NumError "ParseInt" "abc" strconv.ErrSyntax) (by decide)).2.1⟩

/-- Attaching a post to the request scope keeps the user of the scope. -/
theorem getUserFromContext_withPost (r : Request) (p : Option store.Post) :
    getUserFromContext (withPost r p) = getUserFromContext r := by
  have hkey : (userCtx == postCtx) = false := by decide
  simp [getUserFromContext, withPost, Request.WithContext, context.WithValue, context.Value,
    List.lookup, hkey]

/-- The post attached to the request scope is the one read back. -/
theorem getPostFromCtx_withPost (r : Request) (p : Option store.Post) :
    getPostFromCtx (withPost r p) = p := by
  simp [getPostFromCtx, withPost, Request.WithContext, context.WithValue, context.Value,
    List.lookup]

/-- C12. For a route identifier that parses as the id `id`,
`postContextMiddleware` reads the post from persistence once and ends in one of
three ways. If the read fails with an error that is `ErrNotFound`: the 404
response with the message "not found", the next handler not served. If it
fails with another error: the 500 response, the next handler not served. If it
returns the post `p`: the next handler run once on the request with `p`
attached, nothing written; on that request `getPostFromCtx` returns `p` and
`getUserFromContext` returns what it returned before. -/
theorem postContextMiddleware_well_formed_id (app : application ω) (next : Handler ω)
    (r : Request) (st : St ω) (id : Int)
    (hid : strconv.ParseInt (chi.URLParam r "postID") = (id, none)) :
    (∀ p err, app.store.Posts.GetByID st.world id = (p, some err) →
      errors.Is err store.ErrNotFound = true →
      postContextMiddleware app next r st =
        notFoundResponse r err (st.call (Call.PostsGetByID id)) ∧
      (postContextMiddleware app recordNext r st).rw = st.rw ++ notFoundResponseCalls ∧
      (postContextMiddleware app recordNext r st).calls = st.calls ++ [Call.PostsGetByID id]) ∧
    (∀ p err, app.store.Posts.GetByID st.world id = (p, some err) →
      errors.Is err store.ErrNotFound = false →
      postContextMiddleware app next r st =
        internalServerError r err (st.call (Call.PostsGetByID id)) ∧
      (postContextMiddleware app recordNext r st).rw = st.rw ++ internalErrorResponse ∧
      (postContextMiddleware app recordNext r st).calls = st.calls ++ [Call.PostsGetByID id]) ∧
    (∀ p, app.store.Posts.GetByID st.world id = (p, none) →
      postContextMiddleware app next r st =
        next (withPost r p) (st.call (Call.PostsGetByID id)) ∧
      (postContextMiddleware app recordNext r st).rw = st.rw ∧
      (postContextMiddleware app recordNext r st).calls =
        st.calls ++ [Call.PostsGetByID id, Call.ServeHTTP (withPost r p)] ∧
      getPostFromCtx (withPost r p) = p ∧
      getUserFromContext (withPost r p) = getUserFromContext r) := by
  refine ⟨?_, ?_, ?_⟩
  · intro p err h hnf
    have h1 : app.store.Posts.GetByID (st.call (Call.PostsGetByID id)).world id =
        (p, some err) := h
    simp [postContextMiddleware, hid, h1, h, hnf, notFoundResponse, writeJSONError, writeJSON,
      St.log, St.call, notFoundResponseCalls]
  · intro p err h hnf
    have h1 : app.store.Posts.GetByID (st.call (Call.PostsGetByID id)).world id =
        (p, some err) := h
    simp [postContextMiddleware, hid, h1, h, hnf, internalServerError, writeJSONError, writeJSON,
      St.log, St.call, internalErrorResponse]
  · intro p h
    have h1 : app.store.Posts.GetByID (st.call (Call.PostsGetByID id)).world id =
        (p, none) := h
    refine ⟨?_, ?_, ?_, getPostFromCtx_withPost r p, getUserFromContext_withPost r p⟩
    · simp [postContextMiddleware, hid, h1, h, withPost]
    · simp [postContextMiddleware, hid, h1, h, recordNext, St.call]
    · simp [postContextMiddleware, hid, h1, h, recordNext, St.call, withPost]

/-- The post 9 is found and attached, the user of the scope kept; the post 11
is absent and answered with the 404. -/
theorem postContextMiddleware_well_formed_id_witness :
    (postContextMiddleware (demoApp ⟨⟨true⟩, ⟨true⟩⟩) recordNext
        (postRequest "9" (context.WithValue [] userCtx (ctxValue.user (some (demoUser 5 ⟨"user", 1⟩)))))
        (St.init postsWorld)).calls =
      [Call.PostsGetByID 9,
       Call.ServeHTTP (withPost
         (postRequest "9" (context.WithValue [] userCtx (ctxValue.user (some (demoUser 5 ⟨"user", 1⟩)))))
         (some (demoPost 9 5)))] ∧
    getUserFromContext (withPost
        (postRequest "9" (context.WithValue [] userCtx (ctxValue.user (some (demoUser 5 ⟨"user", 1⟩)))))
        (some (demoPost 9 5))) = some (demoUser 5 ⟨"user", 1⟩) ∧
    (postContextMiddleware (demoApp ⟨⟨true⟩, ⟨true⟩⟩) recordNext (postRequest "11" [])
        (St.init postsWorld)).rw = notFoundResponseCalls :=
  ⟨((postContextMiddleware_well_formed_id (demoApp ⟨⟨true⟩, ⟨true⟩⟩) recordNext
      (postRequest "9" (context.WithValue [] userCtx (ctxValue.user (some (demoUser 5 ⟨"user", 1⟩)))))
      (St.init postsWorld) 9 (by decide)).2.2 (some (demoPost 9 5)) (by decide)).2.2.1,
   by decide,
   ((postContextMiddleware_well_formed_id (demoApp ⟨⟨true⟩, ⟨true⟩⟩) recordNext
      (postRequest "11" []) (St.init postsWorld) 11 (by decide)).1
      none store.ErrNotFound (by decide) (by decide)).2.1⟩

end ResourceStage

section StaticCredentials

variable {ω : Type}

/-- What `cut` returns: the text before the first separator and the text after it. -/
theorem cut_eq_some (sep : Char) : ∀ (s a b : List Char),
    strings.cut sep s = some (a, b) ↔ sep ∉ a ∧ s = a ++ sep :: b := by
  intro s
  induction s with
  | nil =>
    intro a b
    simp [strings.cut]
  | cons c cs ih =>
    intro a b
    unfold strings.cut
    by_cases hc : c = sep
    · subst hc
      simp only [if_true, Option.some.injEq, Prod.mk.injEq]
      constructor
      · rintro ⟨rfl, rfl⟩
        simp
      · rintro ⟨hfree, heq⟩
        cases a with
        | nil => simpa using heq
        | cons x xs =>
          simp only [List.cons_append, List.cons.injEq] at heq
          exact absurd (heq.1 ▸ List.mem_cons_self _ _) hfree
    · simp only [hc, if_false]
      cases hcut : strings.cut sep cs with
      | none =>
        constructor
        · intro h; cases h
        rintro ⟨hfree, heq⟩
        exfalso
        cases a with
        | nil =>
          simp only [List.nil_append, List.cons.injEq] at heq
          exact hc heq.1
        | cons x xs =>
          simp only [List.cons_append, List.cons.injEq] at heq
          have := (ih xs b).mpr ⟨fun h => hfree (List.mem_cons_of_mem _ h), heq.2⟩
          rw [hcut] at this
          cases this
      | some ab =>
        obtain ⟨a1, b1⟩ := ab
        have h1 := (ih a1 b1).mp hcut
        simp only [Option.some.injEq, Prod.mk.injEq]
        constructor
        · rintro ⟨rfl, rfl⟩
          refine ⟨?_, ?_⟩
          · intro hmem
            rcases List.mem_cons.mp hmem with h | h
            · exact hc h.symm
            · exact h1.1 h
          · simp [h1.2]
        · rintro ⟨hfree, heq⟩
          cases a with
          | nil =>
            simp only [List.nil_append, List.cons.injEq] at heq
            exact absurd heq.1 hc
          | cons x xs =>
            simp only [List.cons_append, List.cons.injEq] at heq
            have := (ih xs b).mpr ⟨fun h => hfree (List.mem_cons_of_mem _ h), heq.2⟩
            rw [hcut] at this
            simp only [Option.some.injEq, Prod.mk.injEq] at this
            exact ⟨by rw [heq.1, this.1], this.2⟩

/-- A value below 64 is read back from its character. -/
theorem decodeMap_encodeChar : ∀ v, v < 64 →
    base64.decodeMap (base64.encodeChar v) = some v := by
  decide

/-- The characters of the alphabet are neither a space nor a colon. -/
theorem encodeChar_ne_space : ∀ v, v < 64 → base64.encodeChar v ≠ ' ' := by
  decide

/-- The four values of three bytes give the three bytes back. -/
theorem quantumBytes_full (b0 b1 b2 : Nat) (_h0 : b0 < 256) (h1 : b1 < 256) (h2 : b2 < 256) :
    base64.quantumBytes [b0 / 4, (b0 % 4) * 16 + b1 / 16, (b1 % 16) * 4 + b2 / 64, b2 % 64] =
      [b0, b1, b2] := by
  simp only [base64.quantumBytes, List.cons.injEq, and_true]
  refine ⟨by omega, by omega, by omega⟩

/-- Decoding the standard encoding of bytes gives the bytes back. -/
theorem decodeLoop_encodeBytes (n : Nat) : ∀ (bs : List Nat), bs.length ≤ n →
    (∀ b ∈ bs, b < 256) → ∀ (si : Nat) (out : List Nat),
    base64.decodeLoop (base64.encodeBytes bs) si [] out = (out ++ bs, none) := by
  induction n with
  | zero =>
    intro bs hlen _ si out
    have : bs = [] := List.length_eq_zero.mp (by omega)
    subst this
    simp [base64.encodeBytes, base64.decodeLoop]
  | succ n ih =>
    intro bs hlen hb si out
    have hpad : base64.decodeMap '=' = none := by decide
    match bs, hlen, hb with
    | [], _, _ => simp [base64.encodeBytes, base64.decodeLoop]
    | [b0], _, hb =>
      have h0 : b0 < 256 := hb b0 (by simp)
      have e0 := decodeMap_encodeChar (b0 / 4) (by omega)
      have e1 := decodeMap_encodeChar ((b0 % 4) * 16) (by omega)
      simp [base64.encodeBytes, base64.decodeLoop, e0, e1, hpad, base64.skipNewlines,
        base64.afterPadding, base64.quantumBytes]
      omega
    | [b0, b1], _, hb =>
      have h0 : b0 < 256 := hb b0 (by simp)
      have h1 : b1 < 256 := hb b1 (by simp)
      have e0 := decodeMap_encodeChar (b0 / 4) (by omega)
      have e1 := decodeMap_encodeChar ((b0 % 4) * 16 + b1 / 16) (by omega)
      have e2 := decodeMap_encodeChar ((b1 % 16) * 4) (by omega)
      have hq0 : b0 / 4 * 4 + (b0 % 4 * 16 + b1 / 16) / 16 = b0 := by omega
      simp [base64.encodeBytes, base64.decodeLoop, e0, e1, e2, hpad, base64.skipNewlines,
        base64.afterPadding, base64.quantumBytes, hq0]
      omega
    | b0 :: b1 :: b2 :: rest, hlen, hb =>
      have h0 : b0 < 256 := hb b0 (by simp)
      have h1 : b1 < 256 := hb b1 (by simp)
      have h2 : b2 < 256 := hb b2 (by simp)
      have e0 := decodeMap_encodeChar (b0 / 4) (by omega)
      have e1 := decodeMap_encodeChar ((b0 % 4) * 16 + b1 / 16) (by omega)
      have e2 := decodeMap_encodeChar ((b1 % 16) * 4 + b2 / 64) (by omega)
      have e3 := decodeMap_encodeChar (b2 % 64) (by omega)
      have hrest := ih rest (by simp at hlen; omega) (fun b hbm => hb b (by simp [hbm]))
        (si + 1 + 1 + 1 + 1) (out ++ [b0, b1, b2])
      simp only [base64.encodeBytes, base64.decodeLoop, e0, e1, e2, e3, List.length_nil,
        List.length_cons, List.nil_append, List.cons_append, List.singleton_append,
        quantumBytes_full b0 b1 b2 h0 h1 h2]
      norm_num
      rw [hrest]
      simp

/-- The standard encoding holds no space. -/
theorem encodeBytes_no_space (n : Nat) : ∀ (bs : List Nat), bs.length ≤ n →
    (∀ b ∈ bs, b < 256) → ' ' ∉ base64.encodeBytes bs := by
  induction n with
  | zero =>
    intro bs hlen _
    have : bs = [] := List.length_eq_zero.mp (by omega)
    subst this
    simp [base64.encodeBytes]
  | succ n ih =>
    intro bs hlen hb
    have hpad : ('=' : Char) ≠ ' ' := by decide
    match bs, hlen, hb with
    | [], _, _ => simp [base64.encodeBytes]
    | [b0], _, hb =>
      have h0 : b0 < 256 := hb b0 (by simp)
      have e0 := encodeChar_ne_space (b0 / 4) (by omega)
      have e1 := encodeChar_ne_space ((b0 % 4) * 16) (by omega)
      simp [base64.encodeBytes, e0.symm, e1.symm]
    | [b0, b1], _, hb =>
      have h0 : b0 < 256 := hb b0 (by simp)
      have h1 : b1 < 256 := hb b1 (by simp)
      have e0 := encodeChar_ne_space (b0 / 4) (by omega)
      have e1 := encodeChar_ne_space ((b0 % 4) * 16 + b1 / 16) (by omega)
      have e2 := encodeChar_ne_space ((b1 % 16) * 4) (by omega)
      simp [base64.encodeBytes, e0.symm, e1.symm, e2.symm]
    | b0 :: b1 :: b2 :: rest, hlen, hb =>
      have h0 : b0 < 256 := hb b0 (by simp)
      have h1 : b1 < 256 := hb b1 (by simp)
      have h2 : b2 < 256 := hb b2 (by simp)
      have e0 := encodeChar_ne_space (b0 / 4) (by omega)
      have e1 := encodeChar_ne_space ((b0 % 4) * 16 + b1 / 16) (by omega)
      have e2 := encodeChar_ne_space ((b1 % 16) * 4 + b2 / 64) (by omega)
      have e3 := encodeChar_ne_space (b2 % 64) (by omega)
      have hrest := ih rest (by simp at hlen; omega) (fun b hbm => hb b (by simp [hbm]))
      simp [base64.encodeBytes, e0.symm, e1.symm, e2.symm, e3.symm, hrest]

/-- Decoding the standard encoding of a text of bytes gives the text back. -/
theorem DecodeString_EncodeToString (t : String) (hbytes : ∀ c ∈ t.data, c.toNat < 256) :
    base64.DecodeString (base64.EncodeToString t) = (t, none) := by
  have h := decodeLoop_encodeBytes (t.data.map Char.toNat).length (t.data.map Char.toNat)
    (le_refl _) (by simpa using hbytes) 0 []
  unfold base64.DecodeString base64.EncodeToString
  simp only [h, List.nil_append, List.map_map]
  have hid : (Char.ofNat ∘ Char.toNat) = id := by
    funext c
    simp [Char.ofNat_toNat]
  rw [hid, List.map_id]

/-- The decoder skips a carriage return and a line feed, inside a quantum and
after the padding; with the credentials `admin` and `admin` the header whose
encoding holds a carriage return is accepted. -/
theorem DecodeString_skips_line_breaks :
    base64.DecodeString "YWRt\raW46YWRtaW4=" = ("admin:admin", none) ∧
    base64.DecodeString "YWRt\naW46YWRtaW4=" = ("admin:admin", none) ∧
    base64.DecodeString "YWRtaW46YWRtaW4=\r\n" = ("admin:admin", none) ∧
    base64.DecodeString "YWRtaW46YWRtaQ=\r\n=" = ("admin:admi", none) ∧
    base64.DecodeString "YWRt aW46YWRtaW4=" =
      ("adm", some (base64.CorruptInputError 4)) ∧
    (BasicAuthMiddleware (basicApp "admin" "admin") recordNext
        (demoRequest "Basic YWRt\raW46YWRtaW4=") (St.init demoWorld)).calls =
      [Call.ServeHTTP (demoRequest "Basic YWRt\raW46YWRtaW4=")] := by
  refine ⟨by decide, by decide, by decide, by decide, by decide, by decide⟩

/-- A text splits at spaces into the two pieces `a` and `b` exactly when it is
`a`, a space, `b`, with no space in `a` or `b`. -/
theorem Split_eq_pair (h a b : String) :
    strings.Split h ' ' = [a, b] ↔ ' ' ∉ a.data ∧ ' ' ∉ b.data ∧ h = a ++ " " ++ b := by
  constructor
  · intro hsplit
    unfold strings.Split at hsplit
    have hfree := splitOnP_pieces_free (fun c => c == ' ') h.data
    have hinter := List.intercalate_splitOn h.data ' '
    unfold List.splitOn at hsplit hinter
    generalize List.splitOnP (fun c => c == ' ') h.data = parts at hsplit hfree hinter
    match parts, hsplit with
    | [x, y], hsplit =>
      simp only [List.map_cons, List.map_nil, List.cons.injEq, and_true] at hsplit
      obtain ⟨rfl, rfl⟩ := hsplit
      refine ⟨?_, ?_, ?_⟩
      · intro hmem
        have := hfree x (by simp) ' ' hmem
        simp at this
      · intro hmem
        have := hfree y (by simp) ' ' hmem
        simp at this
      · apply String.ext
        rw [← hinter]
        simp [String.data_append, List.intercalate]
  · rintro ⟨ha, hb, rfl⟩
    have hdata : (a ++ " " ++ b).data = [' '].intercalate [a.data, b.data] := by
      simp [String.data_append, List.intercalate]
    unfold strings.Split
    rw [hdata, List.splitOn_intercalate]
    · rfl
    · intro l hl
      simp only [List.mem_cons, List.mem_singleton, List.not_mem_nil, or_false] at hl
      rcases hl with h | h
      · subst h; exact ha
      · subst h; exact hb
    · simp

/-- The credentials read from a decoded text are `user` and `pass` exactly when
the text is `user`, a colon, `pass`, with no colon in `user`. -/
theorem SplitN_credentials (d user pass : String) :
    ((strings.SplitN d ':' 2).length = 2 ∧ (strings.SplitN d ':' 2).getD 0 "" = user ∧
        (strings.SplitN d ':' 2).getD 1 "" = pass) ↔
      (':' ∉ user.data ∧ d = user ++ ":" ++ pass) := by
  unfold strings.SplitN
  simp only [strings.splitNAux]
  cases hcut : strings.cut ':' d.data with
  | none =>
    simp only [List.map_cons, List.map_nil, List.length_singleton, OfNat.one_ne_ofNat, false_and,
      false_iff, not_and]
    intro hfree heq
    have := (cut_eq_some ':' d.data user.data pass.data).mpr
      ⟨hfree, by rw [heq]; simp [String.data_append]⟩
    rw [hcut] at this
    cases this
  | some ab =>
    obtain ⟨a, b⟩ := ab
    have hab := (cut_eq_some ':' d.data a b).mp hcut
    simp only [List.map_cons, List.map_nil, List.length_cons, List.length_nil, List.getD_cons_zero,
      List.getD_cons_succ, true_and]
    constructor
    · rintro ⟨hu, hp⟩
      subst hu
      subst hp
      refine ⟨hab.1, ?_⟩
      apply String.ext
      simp [String.data_append, hab.2]
    · rintro ⟨hfree, heq⟩
      have := (cut_eq_some ':' d.data user.data pass.data).mpr
        ⟨hfree, by rw [heq]; simp [String.data_append]⟩
      rw [hcut] at this
      simp only [Option.some.injEq, Prod.mk.injEq] at this
      refine ⟨?_, ?_⟩
      · apply String.ext; simp [this.1]
      · apply String.ext; simp [this.2]

/-- The response of `unauthorizedBasicErrorResponse`, whatever the error. -/
theorem unauthorizedBasicErrorResponse_rw (r : Request) (err : error) (st : St ω) :
    (unauthorizedBasicErrorResponse r err st).rw = st.rw ++ basicChallengeResponse := by
  simp [unauthorizedBasicErrorResponse, writeJSONError, writeJSON, St.log, basicChallengeResponse]

theorem unauthorizedBasicErrorResponse_calls (r : Request) (err : error) (st : St ω) :
    (unauthorizedBasicErrorResponse r err st).calls = st.calls := rfl

/-- C13, the claim as stated fails in both directions. With the credentials
`admin` and `admin`, the header `Basic YWRtaW46YWRtaW5=` is not the standard
encoding of `admin:admin` (which ends in `4=`), yet the next handler is served:
the decoder drops the bits of the last character that fill no byte. With the
user name `a:b` and the password `c`, the header with the standard encoding of
`a:b:c` is answered with the 401: the decoded text is cut at its first colon. -/
theorem BasicAuthMiddleware_claim_fails :
    (demoRequest "Basic YWRtaW46YWRtaW5=").Header.Get "Authorization" ≠
      "Basic " ++ base64.EncodeToString ("admin" ++ ":" ++ "admin") ∧
    (BasicAuthMiddleware (basicApp "admin" "admin") recordNext
        (demoRequest "Basic YWRtaW46YWRtaW5=") (St.init demoWorld)).calls =
      [Call.ServeHTTP (demoRequest "Basic YWRtaW46YWRtaW5=")] ∧
    (demoRequest "Basic YTpiOmM=").Header.Get "Authorization" =
      "Basic " ++ base64.EncodeToString ("a:b" ++ ":" ++ "c") ∧
    (BasicAuthMiddleware (basicApp "a:b" "c") recordNext
        (demoRequest "Basic YTpiOmM=") (St.init demoWorld)).calls = [] ∧
    (BasicAuthMiddleware (basicApp "a:b" "c") recordNext
        (demoRequest "Basic YTpiOmM=") (St.init demoWorld)).rw = basicChallengeResponse := by
  refine ⟨by decide, by decide, by decide, by decide, by decide⟩

/-- C13, amended. `BasicAuthMiddleware` serves the next handler, on the request
and state as they are, exactly when the `Authorization` header is `Basic `
followed by a text without spaces that the standard decoder decodes to the
configured user, a colon and the configured password, the user holding no
colon. In every other case it answers with the 401 "unauthorized" response
with the `WWW-Authenticate` challenge and does not serve the next handler.
When the user holds no colon and the credentials are texts of bytes, the header
with the standard encoding is one that is accepted. -/
theorem BasicAuthMiddleware_accepts_iff (app : application ω) (next : Handler ω)
    (r : Request) (st : St ω) :
    ((∃ x : String, ' ' ∉ x.data ∧ r.Header.Get "Authorization" = "Basic " ++ x ∧
        base64.DecodeString x =
          (app.configRest.auth.basic.user ++ ":" ++ app.configRest.auth.basic.pass, none) ∧
        ':' ∉ app.configRest.auth.basic.user.data) →
      BasicAuthMiddleware app next r st = next r st ∧
      (BasicAuthMiddleware app recordNext r st).calls = st.calls ++ [Call.ServeHTTP r] ∧
      (BasicAuthMiddleware app recordNext r st).rw = st.rw) ∧
    ((¬ ∃ x : String, ' ' ∉ x.data ∧ r.Header.Get "Authorization" = "Basic " ++ x ∧
        base64.DecodeString x =
          (app.configRest.auth.basic.user ++ ":" ++ app.configRest.auth.basic.pass, none) ∧
        ':' ∉ app.configRest.auth.basic.user.data) →
      (∃ err, BasicAuthMiddleware app next r st = unauthorizedBasicErrorResponse r err st) ∧
      (BasicAuthMiddleware app recordNext r st).rw = st.rw ++ basicChallengeResponse ∧
      (BasicAuthMiddleware app recordNext r st).calls = st.calls) ∧
    (':' ∉ app.configRest.auth.basic.user.data →
      (∀ c ∈ (app.configRest.auth.basic.user ++ ":" ++ app.configRest.auth.basic.pass).data,
        c.toNat < 256) →
      r.Header.Get "Authorization" = "Basic " ++ base64.EncodeToString
        (app.configRest.auth.basic.user ++ ":" ++ app.configRest.auth.basic.pass) →
      BasicAuthMiddleware app next r st = next r st) := by
  have haccept : ∀ (nx : Handler ω) (x : String), ' ' ∉ x.data →
      r.Header.Get "Authorization" = "Basic " ++ x →
      base64.DecodeString x =
        (app.configRest.auth.basic.user ++ ":" ++ app.configRest.auth.basic.pass, none) →
      ':' ∉ app.configRest.auth.basic.user.data →
      BasicAuthMiddleware app nx r st = nx r st := by
    intro nx x hx hhdr hdec hcolon
    have hsplit : strings.Split (r.Header.Get "Authorization") ' ' = ["Basic", x] := by
      rw [Split_eq_pair]
      refine ⟨by decide, hx, ?_⟩
      rw [hhdr]
      apply String.ext
      simp [String.data_append]
    have hne : r.Header.Get "Authorization" ≠ "" := by
      rw [hhdr]
      intro h
      have := congrArg String.data h
      simp [String.data_append] at this
    have hcreds := (SplitN_credentials
      (app.configRest.auth.basic.user ++ ":" ++ app.configRest.auth.basic.pass)
      app.configRest.auth.basic.user app.configRest.auth.basic.pass).mpr ⟨hcolon, rfl⟩
    simp only [BasicAuthMiddleware, hne, hsplit, if_false, List.length_cons, List.length_nil,
      List.getD_cons_zero, List.getD_cons_succ, ne_eq, not_true_eq_false, or_self, hdec]
    split
    · next hbad =>
      rcases hbad with h | h | h
      · exact absurd hcreds.1 h
      · exact absurd hcreds.2.1 h
      · exact absurd hcreds.2.2 h
    · rfl
  have hreject : ∀ (nx : Handler ω),
      (¬ ∃ x : String, ' ' ∉ x.data ∧ r.Header.Get "Authorization" = "Basic " ++ x ∧
        base64.DecodeString x =
          (app.configRest.auth.basic.user ++ ":" ++ app.configRest.auth.basic.pass, none) ∧
        ':' ∉ app.configRest.auth.basic.user.data) →
      ∃ err, BasicAuthMiddleware app nx r st = unauthorizedBasicErrorResponse r err st := by
    intro nx hno
    unfold BasicAuthMiddleware
    dsimp only
    split
    · exact ⟨_, rfl⟩
    · split
      · exact ⟨_, rfl⟩
      · next hparts =>
        split
        · exact ⟨_, rfl⟩
        · next decoded hdec =>
          split
          · exact ⟨_, rfl⟩
          · next hcreds =>
            exfalso
            apply hno
            simp only [ne_eq, not_or, not_not] at hparts hcreds
            have hpair : ∃ x, strings.Split (r.Header.Get "Authorization") ' ' = ["Basic", x] ∧
                (strings.Split (r.Header.Get "Authorization") ' ').getD 1 "" = x := by
              generalize strings.Split (r.Header.Get "Authorization") ' ' = parts at hparts
              match parts, hparts with
              | [a, b], hparts =>
                simp only [List.getD_cons_zero] at hparts
                exact ⟨b, by rw [hparts.2], rfl⟩
            obtain ⟨x, hpair, hx⟩ := hpair
            rw [hx] at hdec
            have hshape := (Split_eq_pair _ _ _).mp hpair
            have hc := (SplitN_credentials decoded app.configRest.auth.basic.user
              app.configRest.auth.basic.pass).mp hcreds
            refine ⟨x, hshape.2.1, ?_, ?_, hc.1⟩
            · exact hshape.2.2.trans (by apply String.ext; simp [String.data_append])
            · rw [hdec, hc.2]
  refine ⟨?_, ?_, ?_⟩
  · rintro ⟨x, hx, hhdr, hdec, hcolon⟩
    refine ⟨haccept next x hx hhdr hdec hcolon, ?_, ?_⟩
    · rw [haccept recordNext x hx hhdr hdec hcolon]; rfl
    · rw [haccept recordNext x hx hhdr hdec hcolon]; rfl
  · intro hno
    obtain ⟨err, herr⟩ := hreject recordNext hno
    refine ⟨hreject next hno, ?_, ?_⟩
    · rw [herr, unauthorizedBasicErrorResponse_rw]
    · rw [herr, unauthorizedBasicErrorResponse_calls]
  · intro hcolon hbytes hhdr
    refine haccept next _ ?_ hhdr (DecodeString_EncodeToString _ hbytes) hcolon
    refine encodeBytes_no_space _ _ (le_refl _) ?_
    intro b hb
    obtain ⟨c, hc, rfl⟩ := List.mem_map.mp hb
    exact hbytes c hc

/-- With the credentials `admin` and `admin`: the header with the standard
encoding `YWRtaW46YWRtaW4=` is accepted; the header with the encoding of
`admin:wrong` is answered with the challenge. -/
theorem BasicAuthMiddleware_accepts_iff_witness :
    (BasicAuthMiddleware (basicApp "admin" "admin") recordNext
        (demoRequest "Basic YWRtaW46YWRtaW4=") (St.init demoWorld)).calls =
      [Call.ServeHTTP (demoRequest "Basic YWRtaW46YWRtaW4=")] ∧
    (BasicAuthMiddleware (basicApp "admin" "admin") recordNext
        (demoRequest "Basic YWRtaW46d3Jvbmc=") (St.init demoWorld)).rw = basicChallengeResponse ∧
    BasicAuthMiddleware (basicApp "admin" "admin") recordNext
        (demoRequest "Basic YWRtaW46YWRtaW4=") (St.init demoWorld) =
      recordNext (demoRequest "Basic YWRtaW46YWRtaW4=") (St.init demoWorld) :=
  ⟨((BasicAuthMiddleware_accepts_iff (basicApp "admin" "admin") recordNext
      (demoRequest "Basic YWRtaW46YWRtaW4=") (St.init demoWorld)).1
      ⟨"YWRtaW46YWRtaW4=", by decide, by decide, by decide, by decide⟩).2.1,
   by decide,
   (BasicAuthMiddleware_accepts_iff (basicApp "admin" "admin") recordNext
      (demoRequest "Basic YWRtaW46YWRtaW4=") (St.init demoWorld)).2.2
      (by decide) (by decide) (by decide)⟩

end StaticCredentials

section NoErrorInResponse

variable {ω : Type}

/-- Two alike results are both errors or both values. -/
theorem alikeResult_cases {α : Type} {x y : α × Option error} (h : alikeResult x y) :
    (x.2 = none ∧ y.2 = none ∧ x.1 = y.1) ∨
    (∃ a b, x.2 = some a ∧ y.2 = some b ∧
      errors.Is a store.ErrNotFound = errors.Is b store.ErrNotFound) := by
  obtain ⟨x1, x2⟩ := x
  obtain ⟨y1, y2⟩ := y
  obtain ⟨hb, hv⟩ := h
  cases x2 with
  | none =>
    cases y2 with
    | none => exact Or.inl ⟨rfl, rfl, hv rfl⟩
    | some b => simp [sameBranch] at hb
  | some a =>
    cases y2 with
    | none => simp [sameBranch] at hb
    | some b =>
      right
      exact ⟨a, b, rfl, rfl, by simpa [sameBranch] using hb⟩

/-- The identity lookup of alike applications leaves the same state and alike
results. -/
theorem getUser_alike (app1 app2 : application ω) (h : alike app1 app2) (userID : Int)
    (st : St ω) :
    (getUser app1 userID st).2 = (getUser app2 userID st).2 ∧
    alikeResult (getUser app1 userID st).1 (getUser app2 userID st).1 := by
  obtain ⟨hcfg, _, _, hdb, hget, hset, _, _⟩ := h
  unfold getUser
  rw [hcfg]
  split
  · exact ⟨rfl, hdb _ _⟩
  · dsimp only
    have hg := alikeResult_cases (hget (st.call (Call.CacheGet userID)).world userID)
    rcases hg1 : app1.cacheStorage.Users.Get (st.call (Call.CacheGet userID)).world userID
      with ⟨v1, e1⟩
    rcases hg2 : app2.cacheStorage.Users.Get (st.call (Call.CacheGet userID)).world userID
      with ⟨v2, e2⟩
    rw [hg1, hg2] at hg
    rcases hg with ⟨h1, h2, h3⟩ | ⟨a, b, h1, h2, hab⟩
    · simp only at h1 h2 h3
      subst h1 h2 h3
      cases v1 with
      | some u => exact ⟨rfl, by simp [alikeResult, sameBranch]⟩
      | none =>
        dsimp only
        have hd := alikeResult_cases
          (hdb ((st.call (Call.CacheGet userID)).call (Call.UsersGetByID userID)).world userID)
        rcases hd1 : app1.store.Users.GetByID
          ((st.call (Call.CacheGet userID)).call (Call.UsersGetByID userID)).world userID
          with ⟨u1, f1⟩
        rcases hd2 : app2.store.Users.GetByID
          ((st.call (Call.CacheGet userID)).call (Call.UsersGetByID userID)).world userID
          with ⟨u2, f2⟩
        rw [hd1, hd2] at hd
        rcases hd with ⟨k1, k2, k3⟩ | ⟨a, b, k1, k2, kab⟩
        · simp only at k1 k2 k3
          subst k1 k2 k3
          dsimp only
          have hs := hset
            (((st.call (Call.CacheGet userID)).call (Call.UsersGetByID userID)).call
              (Call.CacheSet u1)).world u1
          rcases hs1 : app1.cacheStorage.Users.Set
            (((st.call (Call.CacheGet userID)).call (Call.UsersGetByID userID)).call
              (Call.CacheSet u1)).world u1 with ⟨g1, w1⟩
          rcases hs2 : app2.cacheStorage.Users.Set
            (((st.call (Call.CacheGet userID)).call (Call.UsersGetByID userID)).call
              (Call.CacheSet u1)).world u1 with ⟨g2, w2⟩
          rw [hs1, hs2] at hs
          obtain ⟨hsb, hsw⟩ := hs
          simp only at hsb hsw
          subst hsw
          cases g1 <;> cases g2 <;> simp [sameBranch] at hsb <;>
            simp [alikeResult, sameBranch, hsb]
        · simp only at k1 k2
          subst k1 k2
          exact ⟨by simp, by simp [alikeResult, sameBranch, kab]⟩
    · simp only at h1 h2
      subst h1 h2
      exact ⟨by simp, by simp [alikeResult, sameBranch, hab]⟩

/-- What is seen of the "unauthorized" response does not hold the error. -/
theorem unauthorizedErrorResponse_seen (r : Request) (err : error) (st : St ω) :
    (unauthorizedErrorResponse r err st).seen =
      (st.rw ++ unauthorizedResponse, st.calls, st.world, st.panicked) := rfl

/-- What is seen of the 500 response does not hold the error. -/
theorem internalServerError_seen (r : Request) (err : error) (st : St ω) :
    (internalServerError r err st).seen =
      (st.rw ++ internalErrorResponse, st.calls, st.world, st.panicked) := rfl

/-- What is seen of the 404 response does not hold the error. -/
theorem notFoundResponse_seen (r : Request) (err : error) (st : St ω) :
    (notFoundResponse r err st).seen =
      (st.rw ++ notFoundResponseCalls, st.calls, st.world, st.panicked) := rfl

/-- The bearer token stage of alike applications is seen alike. -/
theorem AuthTokenMiddleware_alike (app1 app2 : application ω) (h : alike app1 app2)
    (r : Request) (st : St ω) :
    (AuthTokenMiddleware app1 recordNext r st).seen =
      (AuthTokenMiddleware app2 recordNext r st).seen := by
  have hval := h.2.2.1
  unfold AuthTokenMiddleware
  dsimp only
  split
  · rfl
  · split
    · rfl
    · generalize (strings.Split (r.Header.Get "Authorization") ' ').getD 1 "" = token
      have hv := alikeResult_cases (hval (st.call (Call.ValidateToken token)).world token)
      rcases hv1 : app1.authenticator.ValidateToken (st.call (Call.ValidateToken token)).world token
        with ⟨t1, e1⟩
      rcases hv2 : app2.authenticator.ValidateToken (st.call (Call.ValidateToken token)).world token
        with ⟨t2, e2⟩
      rw [hv1, hv2] at hv
      rcases hv with ⟨k1, k2, k3⟩ | ⟨a, b, k1, k2, _⟩
      · simp only at k1 k2 k3
        subst k1 k2 k3
        cases t1 with
        | none => rfl
        | some jwtToken =>
          dsimp only
          rcases hp : strconv.ParseInt (fmt.Sprintf_f0 ((jwtToken.Claims.getD []).get "sub"))
            with ⟨userID, pe⟩
          cases pe with
          | some err => rfl
          | none =>
            dsimp only
            have hu := getUser_alike app1 app2 h userID (st.call (Call.ValidateToken token))
            rcases hu1 : getUser app1 userID (st.call (Call.ValidateToken token))
              with ⟨⟨u1, f1⟩, s1⟩
            rcases hu2 : getUser app2 userID (st.call (Call.ValidateToken token))
              with ⟨⟨u2, f2⟩, s2⟩
            rw [hu1, hu2] at hu
            obtain ⟨hs, hr⟩ := hu
            simp only at hs
            subst hs
            rcases alikeResult_cases hr with ⟨m1, m2, m3⟩ | ⟨a, b, m1, m2, _⟩
            · simp only at m1 m2 m3
              subst m1 m2 m3
              rfl
            · simp only at m1 m2
              subst m1 m2
              simp [unauthorizedErrorResponse_seen]
      · simp only at k1 k2
        subst k1 k2
        simp [unauthorizedErrorResponse_seen]

/-- The resource stage of alike applications is seen alike. -/
theorem postContextMiddleware_alike (app1 app2 : application ω) (h : alike app1 app2)
    (r : Request) (st : St ω) :
    (postContextMiddleware app1 recordNext r st).seen =
      (postContextMiddleware app2 recordNext r st).seen := by
  have hposts := h.2.2.2.2.2.2.2
  unfold postContextMiddleware
  dsimp only
  rcases hp : strconv.ParseInt (chi.URLParam r "postID") with ⟨id, pe⟩
  cases pe with
  | some err => rfl
  | none =>
    dsimp only
    have hg := alikeResult_cases (hposts (st.call (Call.PostsGetByID id)).world id)
    rcases hg1 : app1.store.Posts.GetByID (st.call (Call.PostsGetByID id)).world id with ⟨p1, e1⟩
    rcases hg2 : app2.store.Posts.GetByID (st.call (Call.PostsGetByID id)).world id with ⟨p2, e2⟩
    rw [hg1, hg2] at hg
    rcases hg with ⟨k1, k2, k3⟩ | ⟨a, b, k1, k2, kab⟩
    · simp only at k1 k2 k3
      subst k1 k2 k3
      rfl
    · simp only at k1 k2
      subst k1 k2
      dsimp only
      rw [kab]
      split
      · simp [notFoundResponse_seen]
      · simp [internalServerError_seen]

/-- The authorization stage of alike applications is seen alike. -/
theorem checkPostOwnership_alike (app1 app2 : application ω) (h : alike app1 app2)
    (requiredRole : String) (r : Request) (st : St ω) :
    (checkPostOwnership app1 requiredRole recordNext r st).seen =
      (checkPostOwnership app2 requiredRole recordNext r st).seen := by
  have hroles := h.2.2.2.2.2.2.1
  unfold checkPostOwnership
  split
  · next post user _ _ =>
    split
    · rfl
    · unfold checkRolePrecedence
      dsimp only
      have hg := alikeResult_cases
        (hroles (st.call (Call.RolesGetByName requiredRole)).world requiredRole)
      rcases hg1 : app1.store.Roles.GetByName (st.call (Call.RolesGetByName requiredRole)).world
        requiredRole with ⟨p1, e1⟩
      rcases hg2 : app2.store.Roles.GetByName (st.call (Call.RolesGetByName requiredRole)).world
        requiredRole with ⟨p2, e2⟩
      rw [hg1, hg2] at hg
      rcases hg with ⟨k1, k2, k3⟩ | ⟨a, b, k1, k2, _⟩
      · simp only at k1 k2 k3
        subst k1 k2 k3
        rfl
      · simp only at k1 k2
        subst k1 k2
        simp [internalServerError_seen]
  · rfl

/-- The static credential stage calls no collaborator: it is the same for
applications of the same configuration. -/
theorem BasicAuthMiddleware_alike (app1 app2 : application ω) (h : alike app1 app2)
    (r : Request) (st : St ω) :
    BasicAuthMiddleware app1 recordNext r st = BasicAuthMiddleware app2 recordNext r st := by
  unfold BasicAuthMiddleware
  rw [h.2.1]

/-- C14. No stage lets the value of a collaborator error reach the response.
For two applications whose collaborators differ at most in the values of the
errors they return (error where the other returns an error, and alike for
`ErrNotFound`, which selects the 404 branch), every run of
`AuthTokenMiddleware`, `BasicAuthMiddleware`, `postContextMiddleware` and
`checkPostOwnership` writes the same calls on the response writer, makes the
same collaborator calls and leaves the same world. In particular
`internalServerError` writes the status 500 with the fixed message for every
error. -/
theorem stages_hide_collaborator_errors (app1 app2 : application ω) (h : alike app1 app2)
    (requiredRole : String) (r : Request) (st : St ω) :
    (AuthTokenMiddleware app1 recordNext r st).seen =
      (AuthTokenMiddleware app2 recordNext r st).seen ∧
    (BasicAuthMiddleware app1 recordNext r st).seen =
      (BasicAuthMiddleware app2 recordNext r st).seen ∧
    (postContextMiddleware app1 recordNext r st).seen =
      (postContextMiddleware app2 recordNext r st).seen ∧
    (checkPostOwnership app1 requiredRole recordNext r st).seen =
      (checkPostOwnership app2 requiredRole recordNext r st).seen ∧
    (∀ e1 e2 : error,
      (internalServerError r e1 st).rw = (internalServerError r e2 st).rw ∧
      (internalServerError r e1 st).rw = st.rw ++
        [rwCall.HeaderSet "Content-Type" "application/json", rwCall.WriteHeader 500,
         rwCall.Encode (Body.errorEnvelope "the server encountered a problem")]) :=
  ⟨AuthTokenMiddleware_alike app1 app2 h r st,
   by rw [BasicAuthMiddleware_alike app1 app2 h r st],
   postContextMiddleware_alike app1 app2 h r st,
   checkPostOwnership_alike app1 app2 h requiredRole r st,
   fun _ _ => ⟨rfl, rfl⟩⟩

/-- A result is alike itself. -/
theorem alikeResult_refl {α : Type} (x : α × Option error) : alikeResult x x := by
  obtain ⟨v, e⟩ := x
  cases e <;> simp [alikeResult, sameBranch]

/-- The failing applications of two errors of the same kind are alike. -/
theorem failingApp_alike (e1 e2 : error)
    (hkind : errors.Is e1 store.ErrNotFound = errors.Is e2 store.ErrNotFound) :
    alike (failingApp e1) (failingApp e2) := by
  refine ⟨rfl, rfl, ?_, ?_, ?_, ?_, ?_, ?_⟩
  · intro w t; exact alikeResult_refl _
  · intro w id; simp [failingApp, alikeResult, sameBranch, hkind]
  · intro w id; exact alikeResult_refl _
  · intro w u
    refine ⟨?_, rfl⟩
    show sameBranch (World.cacheSet w u).1 (World.cacheSet w u).1 = true
    generalize (World.cacheSet w u).1 = e
    cases e <;> simp [sameBranch]
  · intro w n; simp [failingApp, alikeResult, sameBranch, hkind]
  · intro w id; simp [failingApp, alikeResult, sameBranch, hkind]

/-- A refused database connection and an expired deadline, met by the identity
lookup of the bearer token stage and by the resource stage: the responses are
the same, the 401 and the 500. -/
theorem stages_hide_collaborator_errors_witness :
    (AuthTokenMiddleware (failingApp (error.New "pq: connection refused")) recordNext
        (demoRequest "Bearer 7") (St.init postsWorld)).rw =
      (AuthTokenMiddleware (failingApp (error.New "context deadline exceeded")) recordNext
        (demoRequest "Bearer 7") (St.init postsWorld)).rw ∧
    (postContextMiddleware (failingApp (error.New "pq: connection refused")) recordNext
        (postRequest "9" []) (St.init postsWorld)).rw =
      (postContextMiddleware (failingApp (error.New "context deadline exceeded")) recordNext
        (postRequest "9" []) (St.init postsWorld)).rw ∧
    (AuthTokenMiddleware (failingApp (error.New "pq: connection refused")) recordNext
        (demoRequest "Bearer 7") (St.init postsWorld)).rw = unauthorizedResponse ∧
    (postContextMiddleware (failingApp (error.New "pq: connection refused")) recordNext
        (postRequest "9" []) (St.init postsWorld)).rw = internalErrorResponse :=
  ⟨congrArg Prod.fst (stages_hide_collaborator_errors
      (failingApp (error.New "pq: connection refused"))
      (failingApp (error.New "context deadline exceeded"))
      (failingApp_alike _ _ (by decide)) "moderator" (demoRequest "Bearer 7")
      (St.init postsWorld)).1,
   congrArg Prod.fst (stages_hide_collaborator_errors
      (failingApp (error.New "pq: connection refused"))
      (failingApp (error.New "context deadline exceeded"))
      (failingApp_alike _ _ (by decide)) "moderator" (postRequest "9" [])
      (St.init postsWorld)).2.2.1,
   by decide, by decide⟩

end NoErrorInResponse

section TokenIssuance

variable {ω : Type}

/-- C15, the claim as stated fails. The clock stands at 0.999999999 s when
`exp` is computed and at 1 s when `iat` and `nbf` are: with the lifetime of 48
hours (172800 s) the claims passed to `GenerateToken` have `exp = 172800` and
`iat = nbf = 1`, so that `exp - iat` is 172799, and they are the claim set of
the spec for no instant. With a lifetime of 1.5 s and a clock standing still at
0.6 s, `exp - iat` is 2 s. -/
theorem createTokenHandler_claims_not_one_instant :
    (createTokenHandler (demoApp ⟨⟨false⟩, ⟨false⟩⟩) demoTokenEnv (demoRequest "")
        (St.init tickingWorld)).calls =
      [Call.UsersGetByEmail "gopher@example.com", Call.TimeNow, Call.TimeNow, Call.TimeNow,
       Call.GenerateToken
         [("sub", jwt.Value.int64 5), ("exp", jwt.Value.int64 172800),
          ("iat", jwt.Value.int64 1), ("nbf", jwt.Value.int64 1),
          ("iss", jwt.Value.string "gophersocial"), ("aud", jwt.Value.string "gophersocial")]] ∧
    (∀ now : Int,
      [("sub", jwt.Value.int64 5), ("exp", jwt.Value.int64 172800),
       ("iat", jwt.Value.int64 1), ("nbf", jwt.Value.int64 1),
       ("iss", jwt.Value.string "gophersocial"), ("aud", jwt.Value.string "gophersocial")] ≠
      specClaims 5 now (demoApp ⟨⟨false⟩, ⟨false⟩⟩).configRest.auth.token.exp "gophersocial") ∧
    (createTokenHandler halfSecondApp demoTokenEnv (demoRequest "")
        (St.init stillWorld)).calls =
      [Call.UsersGetByEmail "gopher@example.com", Call.TimeNow, Call.TimeNow, Call.TimeNow,
       Call.GenerateToken
         [("sub", jwt.Value.int64 5), ("exp", jwt.Value.int64 2),
          ("iat", jwt.Value.int64 0), ("nbf", jwt.Value.int64 0),
          ("iss", jwt.Value.string "gophersocial"), ("aud", jwt.Value.string "gophersocial")]] := by
  refine ⟨by decide, ?_, by decide⟩
  intro now hcontra
  simp only [specClaims, demoApp, demoConfigRest, time.Unix, List.cons.injEq, Prod.mk.injEq,
    jwt.Value.int64.injEq, true_and, and_true] at hcontra
  omega

/-- C15, amended. For a user whose credentials check succeeds, the claim set
that `createTokenHandler` passes to `GenerateToken` is `sub` the id of the
user, `exp` the seconds of the first reading of the clock plus the lifetime,
`iat` the seconds of the second reading, `nbf` the seconds of the third, `iss`
and `aud` the configured issuer. When the three readings are one instant and
the lifetime is a whole number of seconds, it is the claim set of the spec for
that instant: `iat = nbf` and `exp - iat` is the lifetime. -/
theorem createTokenHandler_claims (app : application ω) (env : createTokenEnv) (r : Request)
    (st : St ω) (payload : CreateUserTokenPayload) (user : store.User)
    (t1 t2 t3 : Int) (w1 w2 w3 : ω)
    (hread : env.readJSON r = (payload, none))
    (hvalid : env.validate payload = none)
    (huser : app.store.Users.GetByEmail st.world payload.Email = (some user, none))
    (hcmp : env.compare user payload.Password = none)
    (h1 : app.timeNow st.world = (t1, w1))
    (h2 : app.timeNow w1 = (t2, w2))
    (h3 : app.timeNow w2 = (t3, w3)) :
    (createTokenHandler app env r st).calls =
      st.calls ++ [Call.UsersGetByEmail payload.Email, Call.TimeNow, Call.TimeNow, Call.TimeNow,
        Call.GenerateToken
          [("sub", jwt.Value.int64 user.ID),
           ("exp", jwt.Value.int64 (time.Unix (time.Add t1 app.configRest.auth.token.exp))),
           ("iat", jwt.Value.int64 (time.Unix t2)),
           ("nbf", jwt.Value.int64 (time.Unix t3)),
           ("iss", jwt.Value.string app.configRest.auth.token.iss),
           ("aud", jwt.Value.string app.configRest.auth.token.iss)]] ∧
    (t1 = t2 → t2 = t3 → app.configRest.auth.token.exp.ns % 1000000000 = 0 →
      [("sub", jwt.Value.int64 user.ID),
       ("exp", jwt.Value.int64 (time.Unix (time.Add t1 app.configRest.auth.token.exp))),
       ("iat", jwt.Value.int64 (time.Unix t2)),
       ("nbf", jwt.Value.int64 (time.Unix t3)),
       ("iss", jwt.Value.string app.configRest.auth.token.iss),
       ("aud", jwt.Value.string app.configRest.auth.token.iss)] =
        specClaims user.ID t1 app.configRest.auth.token.exp app.configRest.auth.token.iss ∧
      time.Unix t2 = time.Unix t3 ∧
      time.Unix (time.Add t1 app.configRest.auth.token.exp) - time.Unix t2 =
        time.Unix app.configRest.auth.token.exp.ns) := by
  constructor
  · have huser1 : app.store.Users.GetByEmail (st.call (Call.UsersGetByEmail payload.Email)).world
        payload.Email = (some user, none) := huser
    have h1a : app.timeNow (st.call (Call.UsersGetByEmail payload.Email)).world = (t1, w1) := h1
    simp only [createTokenHandler, hread, hvalid, huser1, hcmp, h1a]
    simp only [St.call, h2, h3]
    split
    · simp [internalServerError, writeJSONError, writeJSON, St.log]
    · split <;> simp [internalServerError, jsonResponse, writeJSONError, writeJSON, St.log]
  · intro h12 h23 hwhole
    subst h12 h23
    have hexp : time.Unix (time.Add t1 app.configRest.auth.token.exp) =
        time.Unix t1 + time.Unix app.configRest.auth.token.exp.ns := by
      simp only [time.Unix, time.Add]
      omega
    refine ⟨by simp [specClaims, hexp], rfl, ?_⟩
    rw [hexp]
    omega

/-- The user `gopher` in a world whose clock stands still at 0.6 s, with the
lifetime of 48 hours: `iat = nbf = 0` and `exp = 172800`. -/
theorem createTokenHandler_claims_witness :
    (createTokenHandler (demoApp ⟨⟨false⟩, ⟨false⟩⟩) demoTokenEnv (demoRequest "")
        (St.init stillWorld)).calls =
      [Call.UsersGetByEmail "gopher@example.com", Call.TimeNow, Call.TimeNow, Call.TimeNow,
       Call.GenerateToken
         [("sub", jwt.Value.int64 5), ("exp", jwt.Value.int64 172800),
          ("iat", jwt.Value.int64 0), ("nbf", jwt.Value.int64 0),
          ("iss", jwt.Value.string "gophersocial"), ("aud", jwt.Value.string "gophersocial")]] :=
  (createTokenHandler_claims (demoApp ⟨⟨false⟩, ⟨false⟩⟩) demoTokenEnv (demoRequest "")
    (St.init stillWorld) ⟨"gopher@example.com", "secret"⟩ (demoUser 5 ⟨"user", 1⟩)
    600000000 600000000 600000000 stillWorld stillWorld stillWorld
    rfl rfl (by decide) rfl (by decide) (by decide) (by decide)).1

end TokenIssuance

section UserWrites

variable {ω : Type}

/-- The one collaborator call of `activateUserHandler` is `Users.Activate`: the
cache is not called, and the world is the one that `Activate` leaves. -/
theorem activateUserHandler_calls (app : application ω) (r : Request) (st : St ω) :
    (activateUserHandler app r st).calls =
      st.calls ++ [Call.UsersActivate (chi.URLParam r "token")] ∧
    (activateUserHandler app r st).world =
      (app.store.Users.Activate st.world (chi.URLParam r "token")).2 := by
  unfold activateUserHandler
  dsimp only
  split
  · split <;> exact ⟨rfl, rfl⟩
  · split <;> exact ⟨rfl, rfl⟩

/-- C16 (the code departs from it). Neither write of a user invalidates the
cache entry of that user. The activation of the user 7, stored and cached:
the one call is `Users.Activate`, persistence marks the user active, the cache
still holds the entry of 7, and the `getUser 7` that follows returns that
cached copy after the cache lookup alone. The registration whose mail fails:
the user is created with the id 6 and deleted again, the calls are
`CreateAndInvate`, the mailer and `Users.Delete 6`, none on the cache; the
entry that the cache holds under 6 is still there and `getUser 6` returns it,
while persistence has no user 6. -/
theorem user_writes_leave_cache_entry :
    (activateUserHandler worldApp activationRequest (St.init invitedWorld)).calls =
      [Call.UsersActivate "tok"] ∧
    (activateUserHandler worldApp activationRequest (St.init invitedWorld)).world.active = [7] ∧
    (activateUserHandler worldApp activationRequest (St.init invitedWorld)).world.cached =
      [(7, demoUser 7 ⟨"user", 1⟩)] ∧
    (getUser worldApp 7
        (activateUserHandler worldApp activationRequest (St.init invitedWorld))).1 =
      (some (demoUser 7 ⟨"user", 1⟩), none) ∧
    (getUser worldApp 7
        (activateUserHandler worldApp activationRequest (St.init invitedWorld))).2.calls =
      [Call.UsersActivate "tok", Call.CacheGet 7] ∧
    (registerUserHandler worldApp demoRegisterEnv (demoRequest "") (St.init mailDownWorld)).calls =
      [Call.UsersCreateAndInvate ⟨0, "newbie", "newbie@example.com", ⟨"user", 0⟩⟩ "sha256:uuid-1"
         ⟨259200000000000⟩,
       Call.MailerSend "newbie@example.com" "localhost:4000/confirm/uuid-1",
       Call.UsersDelete 6] ∧
    (registerUserHandler worldApp demoRegisterEnv (demoRequest "")
        (St.init mailDownWorld)).world.cached = [(6, demoUser 6 ⟨"user", 1⟩)] ∧
    World.usersGetByID
        (registerUserHandler worldApp demoRegisterEnv (demoRequest "")
          (St.init mailDownWorld)).world 6 = (none, some store.ErrNotFound) ∧
    (getUser worldApp 6
        (registerUserHandler worldApp demoRegisterEnv (demoRequest "")
          (St.init mailDownWorld))).1 = (some (demoUser 6 ⟨"user", 1⟩), none) := by
  refine ⟨by decide, by decide, by decide, by decide, by decide, by decide, by decide,
    by decide, by decide⟩

end UserWrites

section PostUpdate

variable {ω : Type}

/-- Deleting a key of the cache of the concrete world removes that entry and
leaves the entry of every other key. -/
theorem World.cacheGet_cacheDelete (w : World) (k k2 : Int) :
    World.cacheGet (World.cacheDelete w k) k2 =
      if k2 = k then (none, none) else World.cacheGet w k2 := by
  simp only [World.cacheGet, World.cacheDelete]
  induction w.cached with
  | nil => simp [List.lookup]
  | cons e es ih =>
    obtain ⟨a, u⟩ := e
    by_cases hak : a = k
    · subst hak
      by_cases hk : k2 = a
      · subst hk
        simpa [List.filter, List.lookup] using ih
      · have hne : (k2 == a) = false := by simpa using hk
        simpa [List.filter, List.lookup, hk, hne] using ih
    · by_cases hk : k2 = k
      · subst hk
        have hne : (k2 == a) = false := by
          simpa using (fun h : k2 = a => hak h.symm)
        simpa [List.filter, List.lookup, hak, hne] using ih
      · by_cases h2 : k2 = a
        · subst h2
          simp [List.filter, List.lookup, hak, hk]
        · have hne : (k2 == a) = false := by simpa using h2
          simpa [List.filter, List.lookup, hak, hk, hne] using ih

/-- C17. The method `updatePost` first performs the persistent write. If the
write fails it returns that error, the write being its only call: the cache is
not touched. If the write succeeds it returns nil after one call on the cache,
the deletion under the id of the post (not of its owner), and the world is the
one this deletion leaves. The configuration plays no part: the deletion is
made whether or not caching is enabled; returning nothing, it cannot make
`updatePost` fail. On the cache of the concrete world a deletion removes the
entry of its key and no other. -/
theorem updatePost_spec (app : application ω) (p : store.Post) (st : St ω) :
    (∀ p1 err w1, app.store.Posts.Update st.world (some p) = ((p1, some err), w1) →
      (updatePost app (some p) st).1.2 = some err ∧
      (updatePost app (some p) st).2.calls = st.calls ++ [Call.PostsUpdate (some p)] ∧
      (updatePost app (some p) st).2.world = w1) ∧
    (∀ p1 w1, app.store.Posts.Update st.world (some p) = ((some p1, none), w1) →
      (updatePost app (some p) st).1 = (some p1, none) ∧
      (updatePost app (some p) st).2.calls =
        st.calls ++ [Call.PostsUpdate (some p), Call.CacheDelete p1.ID] ∧
      (updatePost app (some p) st).2.world = app.cacheStorage.Users.Delete w1 p1.ID) ∧
    (∀ cfg : config, updatePost { app with config := cfg } (some p) st =
      updatePost app (some p) st) ∧
    (∀ (w : World) (k k2 : Int), World.cacheGet (World.cacheDelete w k) k2 =
      if k2 = k then (none, none) else World.cacheGet w k2) := by
  refine ⟨?_, ?_, ?_, World.cacheGet_cacheDelete⟩
  · intro p1 err w1 h
    have h1 : app.store.Posts.Update (st.call (Call.PostsUpdate (some p))).world (some p) =
        ((p1, some err), w1) := h
    simp [updatePost, h1, h, St.call]
  · intro p1 w1 h
    have h1 : app.store.Posts.Update (st.call (Call.PostsUpdate (some p))).world (some p) =
        ((some p1, none), w1) := h
    simp [updatePost, h1, h, St.call]
  · intro cfg
    rfl

/-- The update of the post 9 of the user 5: the cache entry under 9 is deleted,
the entry under 5, the owner, stays. -/
theorem updatePost_spec_witness :
    (updatePost (demoApp ⟨⟨false⟩, ⟨false⟩⟩) (some (demoPost 9 5))
        (St.init cachedPostsWorld)).2.calls =
      [Call.PostsUpdate (some (demoPost 9 5)), Call.CacheDelete 9] ∧
    (updatePost (demoApp ⟨⟨false⟩, ⟨false⟩⟩) (some (demoPost 9 5))
        (St.init cachedPostsWorld)).2.world.cached = [(5, demoUser 5 ⟨"user", 1⟩)] ∧
    (updatePost (demoApp ⟨⟨false⟩, ⟨false⟩⟩) (some (demoPost 11 5))
        (St.init cachedPostsWorld)).2.calls = [Call.PostsUpdate (some (demoPost 11 5))] :=
  ⟨((updatePost_spec (demoApp ⟨⟨false⟩, ⟨false⟩⟩) (demoPost 9 5)
      (St.init cachedPostsWorld)).2.1 (demoPost 9 5)
      (World.postsUpdate cachedPostsWorld (some (demoPost 9 5))).2 (by decide)).2.1,
   by decide,
   ((updatePost_spec (demoApp ⟨⟨false⟩, ⟨false⟩⟩) (demoPost 11 5)
      (St.init cachedPostsWorld)).1 (some (demoPost 11 5)) store.ErrNotFound
      cachedPostsWorld (by decide)).2.1⟩

/-- C18 (the code departs from it). When `updatePost` returns an error,
`updatePostHandler` writes the 500 response and then, having no `return` after
it, writes the 200 response with the post as well: two responses, the success
one included. When the update succeeds and the encoder does not fail, the one
response is the 200 with the updated post, as claimed. -/
theorem updatePostHandler_failed_update_writes_twice (app : application ω)
    (env : updatePostEnv) (r : Request) (st : St ω) (payload : UpdatePostPayload)
    (p : store.Post)
    (hpanic : st.panicked = false)
    (hpost : getPostFromCtx r = some p)
    (hread : env.readJSON r = (payload, none))
    (hvalid : env.validate payload = none) :
    (∀ p1 err w1,
      app.store.Posts.Update st.world (some (patched p payload)) = ((p1, some err), w1) →
      ∃ rest, (updatePostHandler app env r st).rw =
        st.rw ++ internalErrorResponse ++ postResponse p1 ++ rest) ∧
    (∀ p1 w1,
      app.store.Posts.Update st.world (some (patched p payload)) = ((some p1, none), w1) →
      st.writeErr = none →
      (updatePostHandler app env r st).rw = st.rw ++ postResponse (some p1)) := by
  have hpatch : (match (match some p, payload.Content with
        | some q, some c => some { q with Content := c }
        | q, _ => q), payload.Title with
      | some q, some t => some { q with Title := t }
      | q, _ => q) = some (patched p payload) := by
    rcases payload with ⟨title, content⟩
    cases title <;> cases content <;> rfl
  have hshape : updatePostHandler app env r st =
      (let updated := updatePost app (some (patched p payload)) st
       if updated.2.panicked then updated.2
       else
         let st1 :=
           match updated.1.2 with
           | some err => internalServerError r err updated.2
           | none => updated.2
         let out := jsonResponse 200 (Body.dataPost updated.1.1) st1
         match out.1 with
         | some err => internalServerError r err out.2
         | none => out.2) := by
    simp only [updatePostHandler, hpost, hread, hvalid]
    rw [← hpatch]
  constructor
  · intro p1 err w1 h
    have h1 : app.store.Posts.Update (st.call (Call.PostsUpdate (some (patched p payload)))).world
        (some (patched p payload)) = ((p1, some err), w1) := h
    rw [hshape]
    cases hw : st.writeErr with
    | none =>
      refine ⟨[], ?_⟩
      simp [updatePost, h1, h, St.call, hpanic, internalServerError, jsonResponse, writeJSONError,
        writeJSON, St.log, hw, internalErrorResponse, postResponse]
    | some e =>
      refine ⟨internalErrorResponse, ?_⟩
      simp [updatePost, h1, h, St.call, hpanic, internalServerError, jsonResponse, writeJSONError,
        writeJSON, St.log, hw, internalErrorResponse, postResponse]
  · intro p1 w1 h hw
    have h1 : app.store.Posts.Update (st.call (Call.PostsUpdate (some (patched p payload)))).world
        (some (patched p payload)) = ((some p1, none), w1) := h
    rw [hshape]
    simp [updatePost, h1, h, St.call, hpanic, jsonResponse, writeJSON, hw, postResponse]

/-- The update of a post that persistence does not hold: the 500 response,
then the 200 response with the post. -/
theorem updatePostHandler_failed_update_writes_twice_witness :
    (updatePostHandler (demoApp ⟨⟨false⟩, ⟨false⟩⟩) demoUpdateEnv
        (withPost (postRequest "11" []) (some (demoPost 11 5))) (St.init postsWorld)).rw =
      [rwCall.HeaderSet "Content-Type" "application/json", rwCall.WriteHeader 500,
       rwCall.Encode (Body.errorEnvelope "the server encountered a problem"),
       rwCall.HeaderSet "Content-Type" "application/json", rwCall.WriteHeader 200,
       rwCall.Encode (Body.dataPost (some { demoPost 11 5 with Title := "new title" }))] ∧
    (∃ rest, (updatePostHandler (demoApp ⟨⟨false⟩, ⟨false⟩⟩) demoUpdateEnv
        (withPost (postRequest "11" []) (some (demoPost 11 5))) (St.init postsWorld)).rw =
      (St.init postsWorld).rw ++ internalErrorResponse ++
        postResponse (some { demoPost 11 5 with Title := "new title" }) ++ rest) :=
  ⟨by decide,
   (updatePostHandler_failed_update_writes_twice (demoApp ⟨⟨false⟩, ⟨false⟩⟩) demoUpdateEnv
      (withPost (postRequest "11" []) (some (demoPost 11 5))) (St.init postsWorld)
      ⟨some "new title", none⟩ (demoPost 11 5) rfl (by decide) rfl rfl).1
      (some { demoPost 11 5 with Title := "new title" }) store.ErrNotFound postsWorld
      (by decide)⟩

end PostUpdate

section Feed

variable {ω : Type}

/-- C19 (the code departs from it). For every request whose feed query parses
and is valid, the one collaborator call of `getUserFeedHandler` is
`Posts.GetUserFeed` with the user id 71, the constant of the source, whatever
the identity in the request scope: for a user `u` in scope with an id other
than 71, the id passed is not `u.ID`. -/
theorem getUserFeedHandler_fixed_user (app : application ω) (env : feedEnv) (r : Request)
    (st : St ω) (fq : store.PaginatedFeedQuery) (u : store.User)
    (hparse : env.Parse { Limit := 20, Offset := 0, SortOrder := "desc" } r = (fq, none))
    (hvalid : env.validate fq = none)
    (_hu : getUserFromContext r = some u) :
    (getUserFeedHandler app env r st).calls = st.calls ++ [Call.PostsGetUserFeed 71 fq] ∧
    (u.ID ≠ 71 →
      (getUserFeedHandler app env r st).calls ≠ st.calls ++ [Call.PostsGetUserFeed u.ID fq]) := by
  have hcalls : (getUserFeedHandler app env r st).calls =
      st.calls ++ [Call.PostsGetUserFeed 71 fq] := by
    simp only [getUserFeedHandler, hparse, hvalid]
    split
    · rfl
    · split <;> rfl
  refine ⟨hcalls, ?_⟩
  intro hne
  rw [hcalls]
  intro h
  have := List.append_cancel_left h
  simp only [List.cons.injEq, Call.PostsGetUserFeed.injEq, and_true] at this
  exact hne this.symm

/-- The user 5 in scope: the feed fetched is the feed of the user 71. -/
theorem getUserFeedHandler_fixed_user_witness :
    getUserFromContext (scopedRequest (demoUser 5 ⟨"user", 1⟩) (demoPost 9 5)) =
      some (demoUser 5 ⟨"user", 1⟩) ∧
    (getUserFeedHandler (demoApp ⟨⟨false⟩, ⟨false⟩⟩) demoFeedEnv
        (scopedRequest (demoUser 5 ⟨"user", 1⟩) (demoPost 9 5)) (St.init postsWorld)).calls =
      [Call.PostsGetUserFeed 71 ⟨20, 0, "desc"⟩] ∧
    (getUserFeedHandler (demoApp ⟨⟨false⟩, ⟨false⟩⟩) demoFeedEnv
        (scopedRequest (demoUser 5 ⟨"user", 1⟩) (demoPost 9 5)) (St.init postsWorld)).rw =
      [rwCall.HeaderSet "Content-Type" "application/json", rwCall.WriteHeader 200,
       rwCall.Encode (Body.dataFeed [])] :=
  ⟨by decide,
   (getUserFeedHandler_fixed_user (demoApp ⟨⟨false⟩, ⟨false⟩⟩) demoFeedEnv
      (scopedRequest (demoUser 5 ⟨"user", 1⟩) (demoPost 9 5)) (St.init postsWorld)
      ⟨20, 0, "desc"⟩ (demoUser 5 ⟨"user", 1⟩) rfl rfl (by decide)).1,
   by decide⟩

end Feed

end Social
